import Mathlib

/-!
# Matching client routing layer and history-blob utilities

A shallow embedding of

* `client/matching/client.go`: the sharded-routing client with its cache of
  per-host thrift clients, and
* `service/worker/sysworkflow/util.go`: `NewHistoryBlobKey` and
  `ConvertHeaderToTags`,

followed by the properties established about them.

Go values are represented as follows.  A Go `error` is an `Err`; a `nil` error
is `none`.  A Go map is an association list read with `List.lookup` and written
with `mapSet`.  Calls that leave the process (resolver lookup, handle
construction, the four remote operations, context creation and cancellation)
are recorded, in program order, in the `trace` of the state.  Concurrent callers
of `getThriftClient` are a transition system whose steps are the lock operations and
the accesses to the shared cache.
-/

/-- Go map assignment `m[k] = v` on a map with string keys: the binding of `k` is
replaced or added, every other binding is kept. -/
def mapSet {β : Type} (m : List (String × β)) (k : String) (v : β) : List (String × β) :=
  (k, v) :: m.filter (fun p => p.1 != k)

namespace Matching

/-! ## Data model of `client/matching/client.go` -/

/-- A Go `error` value. -/
abbrev Err := String

/-- Result of `membership.ServiceResolver.Lookup`: the host owning a key. -/
structure HostInfo where
  addr : String
deriving DecidableEq, Repr

/-- The address getter of `membership.HostInfo`. -/
def HostInfo.GetAddress (h : HostInfo) : String := h.addr

/-- A `m.TChanMatchingService` value as built by `NewTChanMatchingServiceClient`.
`id` is the identity of the allocation (the n-th client built by this process has
identity `n`), `hostPort` the `ClientOptions.HostPort` it is bound to. -/
structure Handle where
  id : Nat
  hostPort : String
deriving DecidableEq, Repr

/-- A `thrift.Context` as returned by `thrift.NewContext`: its timeout, in
nanoseconds (the unit of `time.Duration`). -/
structure Context where
  timeout : Nat
deriving DecidableEq, Repr

/-- The thrift `TaskList` struct; `Name` is an optional field. -/
structure TaskList where
  Name : Option String
deriving DecidableEq, Repr

/-- Generated getter: the name, or the zero value when the field is unset. -/
def TaskList.GetName (t : TaskList) : String := t.Name.getD ""

/-- Request of `AddActivityTask`.  `Rest` stands for the fields other than the
task list, which the client never reads.  The thrift-generated getters are not among
the sources; the task list of a request is taken to be set, its name may be unset. -/
structure AddActivityTaskRequest where
  TaskList : TaskList
  Rest : String
deriving DecidableEq, Repr

/-- Request of `AddDecisionTask`. -/
structure AddDecisionTaskRequest where
  TaskList : TaskList
  Rest : String
deriving DecidableEq, Repr

/-- Request of `PollForActivityTask`. -/
structure PollForActivityTaskRequest where
  TaskList : TaskList
  Rest : String
deriving DecidableEq, Repr

/-- Request of `PollForDecisionTask`. -/
structure PollForDecisionTaskRequest where
  TaskList : TaskList
  Rest : String
deriving DecidableEq, Repr

/-- Response of `PollForActivityTask`; the client never inspects it. -/
structure PollForActivityTaskResponse where
  Body : String
deriving DecidableEq, Repr

/-- Response of `PollForDecisionTask`; the client never inspects it. -/
structure PollForDecisionTaskResponse where
  Body : String
deriving DecidableEq, Repr

def AddActivityTaskRequest.GetTaskList (r : AddActivityTaskRequest) : Matching.TaskList :=
  r.TaskList

def AddDecisionTaskRequest.GetTaskList (r : AddDecisionTaskRequest) : Matching.TaskList :=
  r.TaskList

def PollForActivityTaskRequest.GetTaskList (r : PollForActivityTaskRequest) :
    Matching.TaskList :=
  r.TaskList

def PollForDecisionTaskRequest.GetTaskList (r : PollForDecisionTaskRequest) :
    Matching.TaskList :=
  r.TaskList

/-- Constant `time.Second`, in nanoseconds. -/
def Second : Nat := 1000000000

/-- Constant `time.Minute`, in nanoseconds. -/
def Minute : Nat := 60 * Second

/-- Calls made by the client to its collaborators, in program order. -/
inductive Event where
  /-- The call `c.resolver.Lookup(key)` -/
  | Lookup (key : String)
  /-- The call `thrift.NewClient(c.connection, common.MatchingServiceName, {HostPort: hostPort})`
  followed by `m.NewTChanMatchingServiceClient` -/
  | NewClient (hostPort : String)
  /-- The call `thrift.NewContext(timeout)` -/
  | NewContext (timeout : Nat)
  /-- The call `client.AddActivityTask(ctx, addRequest)` -/
  | AddActivityTask (client : Handle) (ctx : Context) (req : AddActivityTaskRequest)
  /-- The call `client.AddDecisionTask(ctx, addRequest)` -/
  | AddDecisionTask (client : Handle) (ctx : Context) (req : AddDecisionTaskRequest)
  /-- The call `client.PollForActivityTask(ctx, pollRequest)` -/
  | PollForActivityTask (client : Handle) (ctx : Context) (req : PollForActivityTaskRequest)
  /-- The call `client.PollForDecisionTask(ctx, pollRequest)` -/
  | PollForDecisionTask (client : Handle) (ctx : Context) (req : PollForDecisionTaskRequest)
  /-- the deferred `cancel()` -/
  | Cancel (ctx : Context)
deriving DecidableEq, Repr

/-- The collaborators of the client: the resolver and the remote matching
service reached through a handle.  They are external; every property below is
stated for arbitrary collaborators. -/
structure Collaborators where
  /-- The call `membership.ServiceResolver.Lookup` -/
  Lookup : String → Except Err HostInfo
  AddActivityTask : Handle → Context → AddActivityTaskRequest → Option Err
  AddDecisionTask : Handle → Context → AddDecisionTaskRequest → Option Err
  PollForActivityTask : Handle → Context → PollForActivityTaskRequest →
    Option PollForActivityTaskResponse × Option Err
  PollForDecisionTask : Handle → Context → PollForDecisionTaskRequest →
    Option PollForDecisionTaskResponse × Option Err

/-- State of a `clientImpl` together with the record of what it has done:
`thriftCache` is the field of that name, `handles` counts the clients built so far
(the identity of the next one), `trace` records the calls to collaborators. -/
structure clientImpl where
  thriftCache : List (String × Handle)
  handles : Nat
  trace : List Event
deriving DecidableEq, Repr

/-- Client made by `NewClient` after a successful `GetResolver`: an empty cache. -/
def NewClient : clientImpl :=
  { thriftCache := [], handles := 0, trace := [] }

/-- Append an event to the trace. -/
def clientImpl.emit (c : clientImpl) (e : Event) : clientImpl :=
  { c with trace := c.trace ++ [e] }

/-! ## Operations -/

/-- Function `clientImpl.getThriftClient`, run without interference from other callers:
the read under `RLock`, then, on a miss, the re-check and the construction under
`Lock`. -/
def getThriftClient (c : clientImpl) (hostPort : String) : Handle × clientImpl :=
  match c.thriftCache.lookup hostPort with
  | some client => (client, c)
  | none =>
    match c.thriftCache.lookup hostPort with
    | some client => (client, c)
    | none =>
      let client : Handle := { id := c.handles, hostPort := hostPort }
      (client,
        { thriftCache := mapSet c.thriftCache hostPort client
          handles := c.handles + 1
          trace := c.trace ++ [Event.NewClient hostPort] })

/-- Function `clientImpl.getHostForRequest`. -/
def getHostForRequest (env : Collaborators) (c : clientImpl) (key : String) :
    Except Err Handle × clientImpl :=
  let c1 := c.emit (Event.Lookup key)
  match env.Lookup key with
  | Except.error err => (Except.error err, c1)
  | Except.ok host =>
    let r := getThriftClient c1 host.GetAddress
    (Except.ok r.1, r.2)

/-- Function `clientImpl.createContext`. -/
def createContext (c : clientImpl) : Context × clientImpl :=
  ({ timeout := Second * 10 }, c.emit (Event.NewContext (Second * 10)))

/-- Function `clientImpl.createLongPollContext`. -/
def createLongPollContext (c : clientImpl) : Context × clientImpl :=
  ({ timeout := Minute * 3 }, c.emit (Event.NewContext (Minute * 3)))

/-- Function `clientImpl.AddActivityTask`: the returned error (`none` is `nil`) and the
state afterwards. -/
def AddActivityTask (env : Collaborators) (c : clientImpl)
    (addRequest : AddActivityTaskRequest) : Option Err × clientImpl :=
  match getHostForRequest env c addRequest.GetTaskList.GetName with
  | (Except.error err, c1) => (some err, c1)
  | (Except.ok client, c1) =>
    let (ctx, c2) := createContext c1
    let c3 := c2.emit (Event.AddActivityTask client ctx addRequest)
    (env.AddActivityTask client ctx addRequest, c3.emit (Event.Cancel ctx))

/-- Function `clientImpl.AddDecisionTask`. -/
def AddDecisionTask (env : Collaborators) (c : clientImpl)
    (addRequest : AddDecisionTaskRequest) : Option Err × clientImpl :=
  match getHostForRequest env c addRequest.GetTaskList.GetName with
  | (Except.error err, c1) => (some err, c1)
  | (Except.ok client, c1) =>
    let (ctx, c2) := createContext c1
    let c3 := c2.emit (Event.AddDecisionTask client ctx addRequest)
    (env.AddDecisionTask client ctx addRequest, c3.emit (Event.Cancel ctx))

/-- Function `clientImpl.PollForActivityTask`: the returned pair (response, error) and the
state afterwards. -/
def PollForActivityTask (env : Collaborators) (c : clientImpl)
    (pollRequest : PollForActivityTaskRequest) :
    (Option PollForActivityTaskResponse × Option Err) × clientImpl :=
  match getHostForRequest env c pollRequest.GetTaskList.GetName with
  | (Except.error err, c1) => ((none, some err), c1)
  | (Except.ok client, c1) =>
    let (ctx, c2) := createLongPollContext c1
    let c3 := c2.emit (Event.PollForActivityTask client ctx pollRequest)
    (env.PollForActivityTask client ctx pollRequest, c3.emit (Event.Cancel ctx))

/-- Function `clientImpl.PollForDecisionTask`. -/
def PollForDecisionTask (env : Collaborators) (c : clientImpl)
    (pollRequest : PollForDecisionTaskRequest) :
    (Option PollForDecisionTaskResponse × Option Err) × clientImpl :=
  match getHostForRequest env c pollRequest.GetTaskList.GetName with
  | (Except.error err, c1) => ((none, some err), c1)
  | (Except.ok client, c1) =>
    let (ctx, c2) := createLongPollContext c1
    let c3 := c2.emit (Event.PollForDecisionTask client ctx pollRequest)
    (env.PollForDecisionTask client ctx pollRequest, c3.emit (Event.Cancel ctx))

end Matching

namespace Matching

/-! ## Sequential runs -/

/-- Number of thrift clients built for `hostPort` so far. -/
def clientImpl.built (c : clientImpl) (hostPort : String) : Nat :=
  c.trace.count (Event.NewClient hostPort)

/-- The handles built and the cache agree: one client was built for every address
in the cache, none for any other address. -/
def clientImpl.Consistent (c : clientImpl) : Prop :=
  ∀ h : String, c.built h = if (c.thriftCache.lookup h).isSome then 1 else 0

/-- A sequential run of `getThriftClient` calls, one per listed address: the
handles returned, in call order, and the final state. -/
def runGets (c : clientImpl) : List String → List Handle × clientImpl
  | [] => ([], c)
  | h :: hs =>
    let r := getThriftClient c h
    let rest := runGets r.2 hs
    (r.1 :: rest.1, rest.2)

/-- One call of a routing operation with its request. -/
inductive Call where
  | AddActivityTask (req : AddActivityTaskRequest)
  | AddDecisionTask (req : AddDecisionTaskRequest)
  | PollForActivityTask (req : PollForActivityTaskRequest)
  | PollForDecisionTask (req : PollForDecisionTaskRequest)
deriving DecidableEq, Repr

/-- State after one routing call. -/
def Call.run (env : Collaborators) (c : clientImpl) : Call → clientImpl
  | Call.AddActivityTask req => (Matching.AddActivityTask env c req).2
  | Call.AddDecisionTask req => (Matching.AddDecisionTask env c req).2
  | Call.PollForActivityTask req => (Matching.PollForActivityTask env c req).2
  | Call.PollForDecisionTask req => (Matching.PollForDecisionTask env c req).2

/-- A sequence of routing calls.  Each call comes with the collaborators as they
are at that moment, so that the resolver may answer differently over time. -/
def runCalls (c : clientImpl) : List (Collaborators × Call) → clientImpl
  | [] => c
  | (env, call) :: rest => runCalls (call.run env c) rest

/-- Timeouts of the contexts handed to the remote calls of a trace, in call order. -/
def callTimeouts : List Event → List Nat
  | [] => []
  | Event.AddActivityTask _ ctx _ :: es => ctx.timeout :: callTimeouts es
  | Event.AddDecisionTask _ ctx _ :: es => ctx.timeout :: callTimeouts es
  | Event.PollForActivityTask _ ctx _ :: es => ctx.timeout :: callTimeouts es
  | Event.PollForDecisionTask _ ctx _ :: es => ctx.timeout :: callTimeouts es
  | _ :: es => callTimeouts es

/-- Collaborators used to instantiate the theorems: the key `tl-unknown` has no
owner, every other key is owned by `10.0.0.5:7941`. -/
def sampleEnv : Collaborators where
  Lookup := fun k =>
    if k = "tl-unknown" then Except.error "no host" else Except.ok ⟨"10.0.0.5:7941"⟩
  AddActivityTask := fun _ _ _ => none
  AddDecisionTask := fun _ _ _ => some "rejected"
  PollForActivityTask := fun _ _ _ => (some ⟨"task"⟩, none)
  PollForDecisionTask := fun _ _ _ => (none, none)

/-! ## Concurrent callers of `getThriftClient`

Several goroutines run `getThriftClient(hostPort)` on the same `clientImpl`.  Each
statement of the function that touches the lock or the shared state is one atomic
step; a schedule, the list of the goroutines that move, interleaves the steps.  A
goroutine scheduled while its `RLock` or `Lock` cannot be granted waits: the step
changes nothing. -/

/-- Where a goroutine stands in `getThriftClient`. -/
inductive Pc where
  /-- about to call `c.thriftCacheLock.RLock()` -/
  | rlock
  /-- holds the read lock, about to read `c.thriftCache[hostPort]` -/
  | read
  /-- has read `client, ok`, about to call `RUnlock()`; `none` is `ok == false` -/
  | runlock (client : Option Handle)
  /-- missed, about to call `c.thriftCacheLock.Lock()` -/
  | lock
  /-- holds the write lock, about to read `c.thriftCache[hostPort]` again -/
  | recheck
  /-- holds the write lock after a second miss, about to build the client -/
  | construct
  /-- has built `client`, about to execute `c.thriftCache[hostPort] = client` -/
  | store (client : Handle)
  /-- about to return `client`; the deferred `Unlock()` runs -/
  | unlock (client : Handle)
  /-- has returned `client` -/
  | done (client : Handle)
deriving DecidableEq, Repr

/-- The goroutine holds the write lock. -/
def Pc.holdsW : Pc → Bool
  | Pc.recheck => true
  | Pc.construct => true
  | Pc.store _ => true
  | Pc.unlock _ => true
  | _ => false

/-- The goroutine holds the read lock. -/
def Pc.holdsR : Pc → Bool
  | Pc.read => true
  | Pc.runlock _ => true
  | _ => false

/-- The goroutine has built a client and not yet stored it. -/
def Pc.isStore : Pc → Bool
  | Pc.store _ => true
  | _ => false

/-- The goroutine is building a client or about to store the one it built. -/
def Pc.isBuilding : Pc → Bool
  | Pc.construct => true
  | Pc.store _ => true
  | _ => false

/-- The goroutine has returned. -/
def Pc.isDone : Pc → Bool
  | Pc.done _ => true
  | _ => false

/-- The handle a goroutine has in its variable `client` with `ok == true`, or returns. -/
def Pc.carries : Pc → Option Handle
  | Pc.runlock (some client) => some client
  | Pc.unlock client => some client
  | Pc.done client => some client
  | _ => none

/-- Number of steps the goroutine has left at most. -/
def Pc.rank : Pc → Nat
  | Pc.rlock => 8
  | Pc.read => 7
  | Pc.runlock _ => 6
  | Pc.lock => 5
  | Pc.recheck => 4
  | Pc.construct => 3
  | Pc.store _ => 2
  | Pc.unlock _ => 1
  | Pc.done _ => 0

/-- The client, its `sync.RWMutex` (`readers` holders of the read lock, `writer` set
while the write lock is held) and the goroutines inside `getThriftClient`. -/
structure System where
  readers : Nat
  writer : Bool
  c : clientImpl
  threads : List Pc
deriving DecidableEq, Repr

/-- System of `n` goroutines entering `getThriftClient` on client `c`, the lock free. -/
def System.init (c : clientImpl) (n : Nat) : System :=
  { readers := 0, writer := false, c := c, threads := List.replicate n Pc.rlock }

/-- Whether goroutine `i` can move: `RLock` needs the write lock free, `Lock` needs
the lock free of writer and readers, a goroutine that returned has no step. -/
def enabled (i : Nat) (s : System) : Bool :=
  match s.threads[i]? with
  | none => false
  | some Pc.rlock => !s.writer
  | some Pc.lock => !s.writer && s.readers == 0
  | some (Pc.done _) => false
  | some _ => true

/-- One step of goroutine `i`. -/
def step (hostPort : String) (i : Nat) (s : System) : System :=
  match s.threads[i]? with
  | none => s
  | some Pc.rlock =>
    if s.writer then s
    else { s with readers := s.readers + 1, threads := s.threads.set i Pc.read }
  | some Pc.read =>
    { s with threads := s.threads.set i (Pc.runlock (s.c.thriftCache.lookup hostPort)) }
  | some (Pc.runlock (some client)) =>
    { s with readers := s.readers - 1, threads := s.threads.set i (Pc.done client) }
  | some (Pc.runlock none) =>
    { s with readers := s.readers - 1, threads := s.threads.set i Pc.lock }
  | some Pc.lock =>
    if s.writer || s.readers != 0 then s
    else { s with writer := true, threads := s.threads.set i Pc.recheck }
  | some Pc.recheck =>
    match s.c.thriftCache.lookup hostPort with
    | some client => { s with threads := s.threads.set i (Pc.unlock client) }
    | none => { s with threads := s.threads.set i Pc.construct }
  | some Pc.construct =>
    { s with
      c := { s.c with
        handles := s.c.handles + 1
        trace := s.c.trace ++ [Event.NewClient hostPort] }
      threads := s.threads.set i (Pc.store { id := s.c.handles, hostPort := hostPort }) }
  | some (Pc.store client) =>
    { s with
      c := { s.c with thriftCache := mapSet s.c.thriftCache hostPort client }
      threads := s.threads.set i (Pc.unlock client) }
  | some (Pc.unlock client) =>
    { s with writer := false, threads := s.threads.set i (Pc.done client) }
  | some (Pc.done _) => s

/-- The system after a schedule. -/
def run (hostPort : String) : List Nat → System → System
  | [], s => s
  | i :: rest, s => run hostPort rest (step hostPort i s)

/-- Number of steps of a schedule in which the scheduled goroutine moved. -/
def moves (hostPort : String) : List Nat → System → Nat
  | [], _ => 0
  | i :: rest, s =>
    (if enabled i s then 1 else 0) + moves hostPort rest (step hostPort i s)

/-- Every goroutine has returned. -/
def System.allDone (s : System) : Bool := s.threads.all Pc.isDone

/-- Steps left at most, over all goroutines. -/
def System.rank (s : System) : Nat := (s.threads.map Pc.rank).sum

/-- What holds of every system reached from `System.init c0 n` with `hostPort` absent
from the cache of `c0`: the lock state matches the goroutines, a handle in the hands
of a goroutine is the cached one, a goroutine building or storing sees no entry, and
the number of clients built for `hostPort` beyond those of `c0` is the entry in the
cache plus the clients awaiting their store. -/
structure Reachable (c0 : clientImpl) (hostPort : String) (n : Nat) (s : System) : Prop where
  length_eq : s.threads.length = n
  writers : s.threads.countP Pc.holdsW = if s.writer then 1 else 0
  readers_eq : s.threads.countP Pc.holdsR = s.readers
  cached : ∀ pc ∈ s.threads, ∀ x, pc.carries = some x →
    s.c.thriftCache.lookup hostPort = some x
  absent : ∀ pc ∈ s.threads, pc.isBuilding = true →
    s.c.thriftCache.lookup hostPort = none
  built_eq : s.c.built hostPort =
    c0.built hostPort + (if (s.c.thriftCache.lookup hostPort).isSome then 1 else 0) +
      s.threads.countP Pc.isStore

end Matching

namespace Sysworkflow

/-! ## Data model of `service/worker/sysworkflow/util.go` -/

/-- A Go `error` value, by its message. -/
abbrev Err := String

/-- A Go `string`: a sequence of bytes, not necessarily valid UTF-8. -/
abbrev GoString := List (Fin 256)

/-- The Go string of an ASCII literal. -/
def ascii (s : String) : GoString := s.toList.map (fun ch => Fin.ofNat ch.toNat)

/-- Constant `HistoryBlobKeyExt`. -/
def HistoryBlobKeyExt : GoString := ascii "history"

/-- Struct `HistoryBlobHeader`; a nil pointer field is `none`. -/
structure HistoryBlobHeader where
  DomainName : Option GoString
  DomainID : Option GoString
  WorkflowID : Option GoString
  RunID : Option GoString
  CurrentPageToken : Option GoString
  NextPageToken : Option GoString
  FirstFailoverVersion : Option GoString
  LastFailoverVersion : Option GoString
  FirstEventID : Option Int
  LastEventID : Option Int
  UploadDateTime : Option GoString
  UploadCluster : Option GoString
  EventCount : Option Int
deriving DecidableEq, Repr

/-! ## `NewHistoryBlobKey` -/

/-- Function `fmt.Sprintf("%v", n)` for an unsigned integer: its decimal digits. -/
def decimal (n : Nat) : GoString := (Nat.toDigits 10 n).map (fun ch => Fin.ofNat ch.toNat)

/-- Function `strings.Join(elems, sep)`. -/
def Join (elems : List GoString) (sep : GoString) : GoString := List.intercalate sep elems

/-- Function `NewHistoryBlobKey`.  `Fingerprint64` stands for `farm.Fingerprint64`, whose
result is a `uint64`, and `NewKey` for `blob.NewKey(extension, pieces...)`; `K` is the
type of blob keys.  Besides the returned pair (key, error) the function yields the
list of the calls it made to `NewKey`, each with its arguments. -/
def NewHistoryBlobKey {K : Type} (Fingerprint64 : GoString → Nat)
    (NewKey : GoString → List GoString → Option K × Option Err)
    (domainID workflowID runID pageToken failoverVersion : GoString) :
    (Option K × Option Err) × List (GoString × List GoString) :=
  if domainID.length == 0 || workflowID.length == 0 || runID.length == 0 ||
      pageToken.length == 0 || failoverVersion.length == 0 then
    ((none, some "all inputs required to be non-empty"), [])
  else
    let domainIDHash := decimal (Fingerprint64 domainID % 2 ^ 64)
    let workflowIDHash := decimal (Fingerprint64 workflowID % 2 ^ 64)
    let runIDHash := decimal (Fingerprint64 runID % 2 ^ 64)
    let combinedHash := Join [domainIDHash, workflowIDHash, runIDHash] []
    (NewKey HistoryBlobKeyExt [combinedHash, pageToken, failoverVersion],
      [(HistoryBlobKeyExt, [combinedHash, pageToken, failoverVersion])])

/-! ## `encoding/json` on a `HistoryBlobHeader`

`json.Marshal` and `json.Unmarshal` belong to the Go standard library.  They are
represented at the level of the JSON document: `Marshal` yields the document whose
text the encoder writes, `Unmarshal` reads that document.  Escaping inside the text
(quotes, control characters, `<`, `>`, `&`) is undone by the decoder and is not
represented; the replacement of invalid UTF-8 by the encoder is, since it changes the
string. -/

/-- Whether the byte lies in the closed range. -/
def inRange (lo hi : Nat) (b : Fin 256) : Bool := decide (lo ≤ b.val) && decide (b.val ≤ hi)

/-- Lowest value accepted for the second byte of a sequence starting with `b0`. -/
def secondLo (b0 : Fin 256) : Nat :=
  if b0.val = 0xE0 then 0xA0 else if b0.val = 0xF0 then 0x90 else 0x80

/-- Highest value accepted for the second byte of a sequence starting with `b0`. -/
def secondHi (b0 : Fin 256) : Nat :=
  if b0.val = 0xED then 0x9F else if b0.val = 0xF4 then 0x8F else 0xBF

/-- Function `utf8.DecodeRuneInString` as far as the encoder uses it: the width of the valid
encoding at the head of the string, or `none` where Go reports `RuneError` with width
1 (an invalid or truncated encoding, or the empty string). -/
def runeLen : GoString → Option Nat
  | [] => none
  | b0 :: rest =>
    if b0.val < 0x80 then some 1
    else if inRange 0xC2 0xDF b0 then
      match rest with
      | b1 :: _ => if inRange 0x80 0xBF b1 then some 2 else none
      | _ => none
    else if inRange 0xE0 0xEF b0 then
      match rest with
      | b1 :: b2 :: _ =>
        if inRange (secondLo b0) (secondHi b0) b1 && inRange 0x80 0xBF b2 then some 3 else none
      | _ => none
    else if inRange 0xF0 0xF4 b0 then
      match rest with
      | b1 :: b2 :: b3 :: _ =>
        if inRange (secondLo b0) (secondHi b0) b1 && inRange 0x80 0xBF b2 &&
            inRange 0x80 0xBF b3 then some 4 else none
      | _ => none
    else none

/-- The string as the JSON encoder writes it and the decoder reads it back: valid
encodings are copied, every byte at which decoding fails is replaced by U+FFFD (bytes
EF BF BD).  `skip` is the number of bytes still to copy of the encoding in progress. -/
def coerceFrom : Nat → GoString → GoString
  | _, [] => []
  | skip + 1, b :: rest => b :: coerceFrom skip rest
  | 0, b :: rest =>
    match runeLen (b :: rest) with
    | some n => b :: coerceFrom (n - 1) rest
    | none => 0xEF :: 0xBF :: 0xBD :: coerceFrom 0 rest

/-- The string coerced to valid UTF-8. -/
def toValidUTF8 (s : GoString) : GoString := coerceFrom 0 s

/-- Function `utf8.ValidString`, with `skip` bytes of the encoding in progress still to pass. -/
def validFrom : Nat → GoString → Bool
  | _, [] => true
  | skip + 1, _ :: rest => validFrom skip rest
  | 0, b :: rest =>
    match runeLen (b :: rest) with
    | some n => validFrom (n - 1) rest
    | none => false

/-- Function `utf8.ValidString`. -/
def ValidString (s : GoString) : Bool := validFrom 0 s

/-- A JSON string or number, the two kinds of member value a header has. -/
inductive Scalar where
  | str (s : GoString)
  | num (n : Int)
deriving DecidableEq, Repr

/-- A JSON document: `null`, a scalar, or an object of scalar members. -/
inductive Document where
  | null
  | scalar (v : Scalar)
  | object (members : List (String × Scalar))
deriving DecidableEq, Repr

/-- The value of one struct field as the encoder sees it: a `*string` or a `*int64`,
`none` being the nil pointer. -/
inductive FieldValue where
  | str (v : Option GoString)
  | int (v : Option Int)
deriving DecidableEq, Repr

/-- Whether the pointer is non-nil. -/
def FieldValue.isSet : FieldValue → Bool
  | FieldValue.str v => v.isSome
  | FieldValue.int v => v.isSome

/-- The fields of a header with the names given by their `json` tags, in declaration
order. -/
def HistoryBlobHeader.fields (h : HistoryBlobHeader) : List (String × FieldValue) :=
  [("domain_name", FieldValue.str h.DomainName),
   ("domain_id", FieldValue.str h.DomainID),
   ("workflow_id", FieldValue.str h.WorkflowID),
   ("run_id", FieldValue.str h.RunID),
   ("current_page_token", FieldValue.str h.CurrentPageToken),
   ("next_page_token", FieldValue.str h.NextPageToken),
   ("first_failover_version", FieldValue.str h.FirstFailoverVersion),
   ("last_failover_version", FieldValue.str h.LastFailoverVersion),
   ("first_event_id", FieldValue.int h.FirstEventID),
   ("last_event_id", FieldValue.int h.LastEventID),
   ("upload_date_time", FieldValue.str h.UploadDateTime),
   ("upload_cluster", FieldValue.str h.UploadCluster),
   ("event_count", FieldValue.int h.EventCount)]

/-- Members written for one field tagged `omitempty`: none for a nil pointer, else the
string coerced to valid UTF-8, or the integer. -/
def encodeField : String × FieldValue → List (String × Scalar)
  | (_, FieldValue.str none) => []
  | (name, FieldValue.str (some s)) => [(name, Scalar.str (toValidUTF8 s))]
  | (_, FieldValue.int none) => []
  | (name, FieldValue.int (some n)) => [(name, Scalar.num n)]

/-- Members of the object written for a header. -/
def members (h : HistoryBlobHeader) : List (String × Scalar) :=
  h.fields.flatMap encodeField

/-- Function `json.Marshal(header)` for a `*HistoryBlobHeader`: `null` for the nil pointer, an
object otherwise.  No value of this type makes the encoder fail. -/
def Marshal (header : Option HistoryBlobHeader) : Except Err Document :=
  match header with
  | none => Except.ok Document.null
  | some h => Except.ok (Document.object (members h))

/-- A value stored in an `interface{}` by the decoder: a string, or the `float64`
nearest to an integer literal. -/
inductive Value where
  | string (s : GoString)
  | float64 (literal : Int)
deriving DecidableEq, Repr

/-- Decoding of a member value into an `interface{}`. -/
def decodeScalar : Scalar → Value
  | Scalar.str s => Value.string s
  | Scalar.num n => Value.float64 n

/-- Function `json.Unmarshal(bytes, &tempMap)` for `tempMap` of type `map[string]interface{}`
(`none` is the nil map): `null` leaves the map as it is, an object stores its members
one after the other, anything else is a type error. -/
def Unmarshal (doc : Document) (tempMap : Option (List (String × Value))) :
    Except Err (Option (List (String × Value))) :=
  match doc with
  | Document.null => Except.ok tempMap
  | Document.object ms =>
    Except.ok (some (ms.foldl (fun m p => mapSet m p.1 (decodeScalar p.2)) (tempMap.getD [])))
  | Document.scalar _ =>
    Except.error "json: cannot unmarshal into Go value of type map[string]interface {}"

/-- Function `fmt.Sprintf("%v", v)` for a decoded value.  `fmtFloat n` stands for the `%v`
rendering of the `float64` nearest to `n`. -/
def Sprintf (fmtFloat : Int → GoString) : Value → GoString
  | Value.string s => s
  | Value.float64 n => fmtFloat n

/-- Function `ConvertHeaderToTags`: the returned pair (map, error).  The `range` loop visits
the entries of `tempMap` in the order of the association list; the keys being
distinct, every order yields the same map. -/
def ConvertHeaderToTags (fmtFloat : Int → GoString) (header : Option HistoryBlobHeader) :
    Option (List (String × GoString)) × Option Err :=
  match Marshal header with
  | Except.error err => (none, some err)
  | Except.ok bytes =>
    match Unmarshal bytes none with
    | Except.error err => (none, some err)
    | Except.ok tempMap =>
      let result := (tempMap.getD []).foldl
        (fun (r : List (String × GoString)) p => mapSet r p.1 (Sprintf fmtFloat p.2)) []
      (some result, none)

/-- A rendering of floats used where a theorem is instantiated; no property depends
on the rendering. -/
def sampleFmtFloat : Int → GoString := fun n => decimal n.toNat

/-- A fingerprint function used where a theorem is instantiated. -/
def sampleFingerprint64 : GoString → Nat := fun s => s.length + 7

/-- A key constructor used where a theorem is instantiated: the key is the list of
its pieces followed by the extension. -/
def sampleNewKey : GoString → List GoString → Option (List GoString) × Option Err :=
  fun ext pieces => (some (pieces ++ [ext]), none)

end Sysworkflow

/-! # Properties -/

namespace Matching

/-! ## Resolution of the routing key -/

theorem getHostForRequest_error (env : Collaborators) (c : clientImpl) (key : String)
    (e : Err) (h : env.Lookup key = Except.error e) :
    getHostForRequest env c key = (Except.error e, c.emit (Event.Lookup key)) := by
  simp [getHostForRequest, h]

theorem getHostForRequest_ok (env : Collaborators) (c : clientImpl) (key : String)
    (host : HostInfo) (h : env.Lookup key = Except.ok host) :
    getHostForRequest env c key =
      (Except.ok (getThriftClient (c.emit (Event.Lookup key)) host.addr).1,
        (getThriftClient (c.emit (Event.Lookup key)) host.addr).2) := by
  simp [getHostForRequest, h, HostInfo.GetAddress]

/-! ## The cache as a map -/

theorem lookup_filter_ne (m : List (String × Handle)) (h k : String) (hk : k ≠ h) :
    (m.filter (fun p => p.1 != h)).lookup k = m.lookup k := by
  induction m with
  | nil => rfl
  | cons p m ih =>
    obtain ⟨a, b⟩ := p
    by_cases ha : a = h
    · subst ha
      have hka : (k == a) = false := by simpa using hk
      simp [List.filter, List.lookup, hka, ih]
    · have hne : (a != h) = true := by simpa using ha
      simp only [List.filter, hne, List.lookup, ih]

theorem lookup_mapSet_self (m : List (String × Handle)) (h : String) (v : Handle) :
    (mapSet m h v).lookup h = some v := by
  simp [mapSet, List.lookup]

theorem lookup_mapSet_ne (m : List (String × Handle)) (h k : String) (v : Handle)
    (hk : k ≠ h) : (mapSet m h v).lookup k = m.lookup k := by
  have hkh : (k == h) = false := by simpa using hk
  simp only [mapSet, List.lookup, hkh]
  exact lookup_filter_ne m h k hk

/-! ## `getThriftClient` -/

theorem getThriftClient_hit (c : clientImpl) (h : String) (client : Handle)
    (hc : c.thriftCache.lookup h = some client) : getThriftClient c h = (client, c) := by
  simp [getThriftClient, hc]

theorem getThriftClient_miss (c : clientImpl) (h : String)
    (hc : c.thriftCache.lookup h = none) :
    getThriftClient c h =
      (⟨c.handles, h⟩,
        ⟨mapSet c.thriftCache h ⟨c.handles, h⟩, c.handles + 1,
          c.trace ++ [Event.NewClient h]⟩) := by
  simp [getThriftClient, hc]

theorem getThriftClient_lookup (c : clientImpl) (h : String) :
    (getThriftClient c h).2.thriftCache.lookup h = some (getThriftClient c h).1 := by
  cases hc : c.thriftCache.lookup h with
  | some client => rw [getThriftClient_hit c h client hc]; exact hc
  | none => rw [getThriftClient_miss c h hc]; exact lookup_mapSet_self _ _ _

theorem getThriftClient_keeps (c : clientImpl) (h k : String) (v : Handle)
    (hk : c.thriftCache.lookup k = some v) :
    (getThriftClient c h).2.thriftCache.lookup k = some v := by
  cases hc : c.thriftCache.lookup h with
  | some client => rw [getThriftClient_hit c h client hc]; exact hk
  | none =>
    rw [getThriftClient_miss c h hc]
    have hne : k ≠ h := by
      intro e; subst e; rw [hc] at hk; cases hk
    show (mapSet c.thriftCache h _).lookup k = some v
    rw [lookup_mapSet_ne _ _ _ _ hne]; exact hk

theorem getThriftClient_other (c : clientImpl) (h k : String) (hk : k ≠ h) :
    (getThriftClient c h).2.thriftCache.lookup k = c.thriftCache.lookup k := by
  cases hc : c.thriftCache.lookup h with
  | some client => rw [getThriftClient_hit c h client hc]
  | none =>
    rw [getThriftClient_miss c h hc]
    exact lookup_mapSet_ne _ _ _ _ hk

theorem getThriftClient_trace (c : clientImpl) (h : String) :
    (getThriftClient c h).2.trace =
      c.trace ++ (if (c.thriftCache.lookup h).isSome then [] else [Event.NewClient h]) := by
  cases hc : c.thriftCache.lookup h with
  | some client => rw [getThriftClient_hit c h client hc]; simp
  | none => rw [getThriftClient_miss c h hc]; simp

/-! ## One routing call, case by case -/

theorem AddActivityTask_error (env : Collaborators) (c : clientImpl) (r : AddActivityTaskRequest)
    (e : Err) (h : env.Lookup r.GetTaskList.GetName = Except.error e) :
    AddActivityTask env c r = (some e, c.emit (Event.Lookup r.GetTaskList.GetName)) := by
  simp [AddActivityTask, getHostForRequest_error env c _ e h]

theorem AddActivityTask_ok (env : Collaborators) (c : clientImpl) (r : AddActivityTaskRequest)
    (host : HostInfo) (h : env.Lookup r.GetTaskList.GetName = Except.ok host)
    (g : Handle × clientImpl)
    (hg : g = getThriftClient (c.emit (Event.Lookup r.GetTaskList.GetName)) host.addr) :
    AddActivityTask env c r =
      (env.AddActivityTask g.1 ⟨10000000000⟩ r,
        ⟨g.2.thriftCache, g.2.handles,
          g.2.trace ++ [Event.NewContext 10000000000, Event.AddActivityTask g.1 ⟨10000000000⟩ r,
            Event.Cancel ⟨10000000000⟩]⟩) := by
  subst hg
  simp [AddActivityTask, getHostForRequest_ok env c _ host h, createContext, clientImpl.emit,
    Second, Minute]

theorem AddDecisionTask_error (env : Collaborators) (c : clientImpl) (r : AddDecisionTaskRequest)
    (e : Err) (h : env.Lookup r.GetTaskList.GetName = Except.error e) :
    AddDecisionTask env c r = (some e, c.emit (Event.Lookup r.GetTaskList.GetName)) := by
  simp [AddDecisionTask, getHostForRequest_error env c _ e h]

theorem AddDecisionTask_ok (env : Collaborators) (c : clientImpl) (r : AddDecisionTaskRequest)
    (host : HostInfo) (h : env.Lookup r.GetTaskList.GetName = Except.ok host)
    (g : Handle × clientImpl)
    (hg : g = getThriftClient (c.emit (Event.Lookup r.GetTaskList.GetName)) host.addr) :
    AddDecisionTask env c r =
      (env.AddDecisionTask g.1 ⟨10000000000⟩ r,
        ⟨g.2.thriftCache, g.2.handles,
          g.2.trace ++ [Event.NewContext 10000000000, Event.AddDecisionTask g.1 ⟨10000000000⟩ r,
            Event.Cancel ⟨10000000000⟩]⟩) := by
  subst hg
  simp [AddDecisionTask, getHostForRequest_ok env c _ host h, createContext, clientImpl.emit,
    Second, Minute]

theorem PollForActivityTask_error (env : Collaborators) (c : clientImpl) (r : PollForActivityTaskRequest)
    (e : Err) (h : env.Lookup r.GetTaskList.GetName = Except.error e) :
    PollForActivityTask env c r = ((none, some e), c.emit (Event.Lookup r.GetTaskList.GetName)) := by
  simp [PollForActivityTask, getHostForRequest_error env c _ e h]

theorem PollForActivityTask_ok (env : Collaborators) (c : clientImpl) (r : PollForActivityTaskRequest)
    (host : HostInfo) (h : env.Lookup r.GetTaskList.GetName = Except.ok host)
    (g : Handle × clientImpl)
    (hg : g = getThriftClient (c.emit (Event.Lookup r.GetTaskList.GetName)) host.addr) :
    PollForActivityTask env c r =
      (env.PollForActivityTask g.1 ⟨180000000000⟩ r,
        ⟨g.2.thriftCache, g.2.handles,
          g.2.trace ++ [Event.NewContext 180000000000, Event.PollForActivityTask g.1 ⟨180000000000⟩ r,
            Event.Cancel ⟨180000000000⟩]⟩) := by
  subst hg
  simp [PollForActivityTask, getHostForRequest_ok env c _ host h, createLongPollContext, clientImpl.emit,
    Second, Minute]

theorem PollForDecisionTask_error (env : Collaborators) (c : clientImpl) (r : PollForDecisionTaskRequest)
    (e : Err) (h : env.Lookup r.GetTaskList.GetName = Except.error e) :
    PollForDecisionTask env c r = ((none, some e), c.emit (Event.Lookup r.GetTaskList.GetName)) := by
  simp [PollForDecisionTask, getHostForRequest_error env c _ e h]

theorem PollForDecisionTask_ok (env : Collaborators) (c : clientImpl) (r : PollForDecisionTaskRequest)
    (host : HostInfo) (h : env.Lookup r.GetTaskList.GetName = Except.ok host)
    (g : Handle × clientImpl)
    (hg : g = getThriftClient (c.emit (Event.Lookup r.GetTaskList.GetName)) host.addr) :
    PollForDecisionTask env c r =
      (env.PollForDecisionTask g.1 ⟨180000000000⟩ r,
        ⟨g.2.thriftCache, g.2.handles,
          g.2.trace ++ [Event.NewContext 180000000000, Event.PollForDecisionTask g.1 ⟨180000000000⟩ r,
            Event.Cancel ⟨180000000000⟩]⟩) := by
  subst hg
  simp [PollForDecisionTask, getHostForRequest_ok env c _ host h, createLongPollContext, clientImpl.emit,
    Second, Minute]

theorem callTimeouts_append (a b : List Event) :
    callTimeouts (a ++ b) = callTimeouts a ++ callTimeouts b := by
  induction a with
  | nil => rfl
  | cons e a ih => cases e <;> simp [callTimeouts, ih]

theorem callTimeouts_getThriftClient (c : clientImpl) (h : String) :
    callTimeouts (getThriftClient c h).2.trace = callTimeouts c.trace := by
  rw [getThriftClient_trace, callTimeouts_append]
  split <;> simp [callTimeouts]

/-! ## Resolver errors (C1) -/

/-- C1. For each of the four routing operations, every request and every state of
the client: when the resolver's `Lookup` of the request's task-list name returns the
error `e`, the operation returns exactly `e` (with a nil response for the two poll
operations), the only call made is that `Lookup` (no handle is built and no remote
call is issued), and the connection cache is left exactly as it was. -/
theorem lookup_error_returned_unchanged (env : Collaborators) (c : clientImpl) (e : Err) :
    (∀ r : AddActivityTaskRequest, env.Lookup r.GetTaskList.GetName = Except.error e →
      AddActivityTask env c r =
        (some e,
          ⟨c.thriftCache, c.handles, c.trace ++ [Event.Lookup r.GetTaskList.GetName]⟩)) ∧
    (∀ r : AddDecisionTaskRequest, env.Lookup r.GetTaskList.GetName = Except.error e →
      AddDecisionTask env c r =
        (some e,
          ⟨c.thriftCache, c.handles, c.trace ++ [Event.Lookup r.GetTaskList.GetName]⟩)) ∧
    (∀ r : PollForActivityTaskRequest, env.Lookup r.GetTaskList.GetName = Except.error e →
      PollForActivityTask env c r =
        ((none, some e),
          ⟨c.thriftCache, c.handles, c.trace ++ [Event.Lookup r.GetTaskList.GetName]⟩)) ∧
    (∀ r : PollForDecisionTaskRequest, env.Lookup r.GetTaskList.GetName = Except.error e →
      PollForDecisionTask env c r =
        ((none, some e),
          ⟨c.thriftCache, c.handles, c.trace ++ [Event.Lookup r.GetTaskList.GetName]⟩)) := by
  refine ⟨?_, ?_, ?_, ?_⟩ <;> intro r h
  · exact AddActivityTask_error env c r e h
  · exact AddDecisionTask_error env c r e h
  · exact PollForActivityTask_error env c r e h
  · exact PollForDecisionTask_error env c r e h

/-- C1 at the key `tl-unknown`, which the sample resolver cannot place. -/
theorem lookup_error_returned_unchanged_witness :
    sampleEnv.Lookup "tl-unknown" = Except.error "no host" ∧
    AddActivityTask sampleEnv NewClient ⟨⟨some "tl-unknown"⟩, "a"⟩ =
      (some "no host", ⟨[], 0, [Event.Lookup "tl-unknown"]⟩) ∧
    PollForDecisionTask sampleEnv NewClient ⟨⟨some "tl-unknown"⟩, "p"⟩ =
      ((none, some "no host"), ⟨[], 0, [Event.Lookup "tl-unknown"]⟩) :=
  ⟨rfl,
    (lookup_error_returned_unchanged sampleEnv NewClient "no host").1
      ⟨⟨some "tl-unknown"⟩, "a"⟩ (rfl),
    (lookup_error_returned_unchanged sampleEnv NewClient "no host").2.2.2
      ⟨⟨some "tl-unknown"⟩, "p"⟩ (rfl)⟩

/-! ## Timeouts (C3) -/

/-- C3. For every request whose routing key resolves, the operation hands exactly
one new context to a remote call, and that context has the timeout of 10 seconds for
`AddActivityTask` and `AddDecisionTask` and of 3 minutes (180 seconds) for
`PollForActivityTask` and `PollForDecisionTask`, whatever the request. -/
theorem timeout_by_operation_kind (env : Collaborators) (c : clientImpl) (host : HostInfo) :
    (∀ r : AddActivityTaskRequest, env.Lookup r.GetTaskList.GetName = Except.ok host →
      callTimeouts (AddActivityTask env c r).2.trace = callTimeouts c.trace ++ [10 * 1000000000]) ∧
    (∀ r : AddDecisionTaskRequest, env.Lookup r.GetTaskList.GetName = Except.ok host →
      callTimeouts (AddDecisionTask env c r).2.trace = callTimeouts c.trace ++ [10 * 1000000000]) ∧
    (∀ r : PollForActivityTaskRequest, env.Lookup r.GetTaskList.GetName = Except.ok host →
      callTimeouts (PollForActivityTask env c r).2.trace = callTimeouts c.trace ++ [180 * 1000000000]) ∧
    (∀ r : PollForDecisionTaskRequest, env.Lookup r.GetTaskList.GetName = Except.ok host →
      callTimeouts (PollForDecisionTask env c r).2.trace = callTimeouts c.trace ++ [180 * 1000000000]) := by
  refine ⟨?_, ?_, ?_, ?_⟩ <;> intro r h
  · rw [AddActivityTask_ok env c r host h _ rfl]
    simp [callTimeouts_append, callTimeouts_getThriftClient, callTimeouts, clientImpl.emit]
  · rw [AddDecisionTask_ok env c r host h _ rfl]
    simp [callTimeouts_append, callTimeouts_getThriftClient, callTimeouts, clientImpl.emit]
  · rw [PollForActivityTask_ok env c r host h _ rfl]
    simp [callTimeouts_append, callTimeouts_getThriftClient, callTimeouts, clientImpl.emit]
  · rw [PollForDecisionTask_ok env c r host h _ rfl]
    simp [callTimeouts_append, callTimeouts_getThriftClient, callTimeouts, clientImpl.emit]

/-- C3 at two requests for the task list `orders-tasklist`. -/
theorem timeout_by_operation_kind_witness :
    sampleEnv.Lookup "orders-tasklist" = Except.ok ⟨"10.0.0.5:7941"⟩ ∧
    callTimeouts (AddDecisionTask sampleEnv NewClient
      ⟨⟨some "orders-tasklist"⟩, "d"⟩).2.trace = callTimeouts NewClient.trace ++ [10 * 1000000000] ∧
    callTimeouts (PollForActivityTask sampleEnv NewClient
      ⟨⟨some "orders-tasklist"⟩, "p"⟩).2.trace =
        callTimeouts NewClient.trace ++ [180 * 1000000000] :=
  ⟨rfl,
    (timeout_by_operation_kind sampleEnv NewClient ⟨"10.0.0.5:7941"⟩).2.1
      ⟨⟨some "orders-tasklist"⟩, "d"⟩ (rfl),
    (timeout_by_operation_kind sampleEnv NewClient ⟨"10.0.0.5:7941"⟩).2.2.1
      ⟨⟨some "orders-tasklist"⟩, "p"⟩ (rfl)⟩

/-! ## A successfully routed call (C6) -/

/-- C6. For each of the four routing operations and every request whose routing
key the resolver maps to `host`: the calls made are, in this order, the `Lookup`, the
construction of a handle when the cache held none for the host, the creation of the
context, exactly one remote call of the matching kind and the cancellation; the remote
call goes through the handle that the cache holds for the host (the one it already held,
if any) with the request as given; and the operation returns what the remote call
returned, unchanged. -/
theorem routed_call_passes_through (env : Collaborators) (c : clientImpl) (host : HostInfo) :
    (∀ r : AddActivityTaskRequest, env.Lookup r.GetTaskList.GetName = Except.ok host →
      ∃ client : Handle,
        (AddActivityTask env c r).2.thriftCache.lookup host.addr = some client ∧
        (∀ v, c.thriftCache.lookup host.addr = some v → client = v) ∧
        (AddActivityTask env c r).1 = env.AddActivityTask client ⟨10000000000⟩ r ∧
        (AddActivityTask env c r).2.trace =
          c.trace ++ [Event.Lookup r.GetTaskList.GetName] ++
            (if (c.thriftCache.lookup host.addr).isSome then []
              else [Event.NewClient host.addr]) ++
            [Event.NewContext 10000000000, Event.AddActivityTask client ⟨10000000000⟩ r,
              Event.Cancel ⟨10000000000⟩]) ∧
    (∀ r : AddDecisionTaskRequest, env.Lookup r.GetTaskList.GetName = Except.ok host →
      ∃ client : Handle,
        (AddDecisionTask env c r).2.thriftCache.lookup host.addr = some client ∧
        (∀ v, c.thriftCache.lookup host.addr = some v → client = v) ∧
        (AddDecisionTask env c r).1 = env.AddDecisionTask client ⟨10000000000⟩ r ∧
        (AddDecisionTask env c r).2.trace =
          c.trace ++ [Event.Lookup r.GetTaskList.GetName] ++
            (if (c.thriftCache.lookup host.addr).isSome then []
              else [Event.NewClient host.addr]) ++
            [Event.NewContext 10000000000, Event.AddDecisionTask client ⟨10000000000⟩ r,
              Event.Cancel ⟨10000000000⟩]) ∧
    (∀ r : PollForActivityTaskRequest, env.Lookup r.GetTaskList.GetName = Except.ok host →
      ∃ client : Handle,
        (PollForActivityTask env c r).2.thriftCache.lookup host.addr = some client ∧
        (∀ v, c.thriftCache.lookup host.addr = some v → client = v) ∧
        (PollForActivityTask env c r).1 = env.PollForActivityTask client ⟨180000000000⟩ r ∧
        (PollForActivityTask env c r).2.trace =
          c.trace ++ [Event.Lookup r.GetTaskList.GetName] ++
            (if (c.thriftCache.lookup host.addr).isSome then []
              else [Event.NewClient host.addr]) ++
            [Event.NewContext 180000000000, Event.PollForActivityTask client ⟨180000000000⟩ r,
              Event.Cancel ⟨180000000000⟩]) ∧
    (∀ r : PollForDecisionTaskRequest, env.Lookup r.GetTaskList.GetName = Except.ok host →
      ∃ client : Handle,
        (PollForDecisionTask env c r).2.thriftCache.lookup host.addr = some client ∧
        (∀ v, c.thriftCache.lookup host.addr = some v → client = v) ∧
        (PollForDecisionTask env c r).1 = env.PollForDecisionTask client ⟨180000000000⟩ r ∧
        (PollForDecisionTask env c r).2.trace =
          c.trace ++ [Event.Lookup r.GetTaskList.GetName] ++
            (if (c.thriftCache.lookup host.addr).isSome then []
              else [Event.NewClient host.addr]) ++
            [Event.NewContext 180000000000, Event.PollForDecisionTask client ⟨180000000000⟩ r,
              Event.Cancel ⟨180000000000⟩]) := by
  have key : ∀ k : String,
      (getThriftClient (c.emit (Event.Lookup k)) host.addr).2.thriftCache.lookup host.addr =
          some (getThriftClient (c.emit (Event.Lookup k)) host.addr).1 ∧
      (∀ v, c.thriftCache.lookup host.addr = some v →
          (getThriftClient (c.emit (Event.Lookup k)) host.addr).1 = v) ∧
      (getThriftClient (c.emit (Event.Lookup k)) host.addr).2.trace =
          c.trace ++ [Event.Lookup k] ++
            (if (c.thriftCache.lookup host.addr).isSome then []
              else [Event.NewClient host.addr]) := by
    intro k
    refine ⟨getThriftClient_lookup _ _, ?_, ?_⟩
    · intro v hv
      have hv2 : (c.emit (Event.Lookup k)).thriftCache.lookup host.addr = some v := hv
      rw [getThriftClient_hit _ _ v hv2]
    · rw [getThriftClient_trace]; rfl
  refine ⟨?_, ?_, ?_, ?_⟩ <;> intro r h <;>
    obtain ⟨k1, k2, k3⟩ := key r.GetTaskList.GetName
  · refine ⟨_, ?_, k2, ?_, ?_⟩
    · rw [AddActivityTask_ok env c r host h _ rfl]; exact k1
    · rw [AddActivityTask_ok env c r host h _ rfl]
    · rw [AddActivityTask_ok env c r host h _ rfl]; simp only [k3]
  · refine ⟨_, ?_, k2, ?_, ?_⟩
    · rw [AddDecisionTask_ok env c r host h _ rfl]; exact k1
    · rw [AddDecisionTask_ok env c r host h _ rfl]
    · rw [AddDecisionTask_ok env c r host h _ rfl]; simp only [k3]
  · refine ⟨_, ?_, k2, ?_, ?_⟩
    · rw [PollForActivityTask_ok env c r host h _ rfl]; exact k1
    · rw [PollForActivityTask_ok env c r host h _ rfl]
    · rw [PollForActivityTask_ok env c r host h _ rfl]; simp only [k3]
  · refine ⟨_, ?_, k2, ?_, ?_⟩
    · rw [PollForDecisionTask_ok env c r host h _ rfl]; exact k1
    · rw [PollForDecisionTask_ok env c r host h _ rfl]
    · rw [PollForDecisionTask_ok env c r host h _ rfl]; simp only [k3]

/-- C6 for an `AddActivityTask` and a `PollForActivityTask` on a fresh client. -/
theorem routed_call_passes_through_witness :
    sampleEnv.Lookup "orders-tasklist" = Except.ok ⟨"10.0.0.5:7941"⟩ ∧
    (∃ client : Handle,
      (AddActivityTask sampleEnv NewClient ⟨⟨some "orders-tasklist"⟩, "a"⟩).2.thriftCache.lookup
          "10.0.0.5:7941" = some client ∧
      (∀ v, NewClient.thriftCache.lookup "10.0.0.5:7941" = some v → client = v) ∧
      (AddActivityTask sampleEnv NewClient ⟨⟨some "orders-tasklist"⟩, "a"⟩).1 =
        sampleEnv.AddActivityTask client ⟨10000000000⟩ ⟨⟨some "orders-tasklist"⟩, "a"⟩ ∧
      (AddActivityTask sampleEnv NewClient ⟨⟨some "orders-tasklist"⟩, "a"⟩).2.trace =
        NewClient.trace ++ [Event.Lookup "orders-tasklist"] ++
          (if (NewClient.thriftCache.lookup "10.0.0.5:7941").isSome then []
            else [Event.NewClient "10.0.0.5:7941"]) ++
          [Event.NewContext 10000000000,
            Event.AddActivityTask client ⟨10000000000⟩ ⟨⟨some "orders-tasklist"⟩, "a"⟩,
            Event.Cancel ⟨10000000000⟩]) :=
  ⟨rfl,
    (routed_call_passes_through sampleEnv NewClient ⟨"10.0.0.5:7941"⟩).1
      ⟨⟨some "orders-tasklist"⟩, "a"⟩ rfl⟩

/-! ## The empty routing key (C4) -/

/-- C4, refuted: with a resolver that places the empty key, each of the four
operations called with an empty task-list name consults the resolver, builds and caches
a handle, issues the remote call and returns its result; no error is raised locally. -/
theorem empty_key_reaches_the_network :
    AddActivityTask sampleEnv NewClient ⟨⟨some ""⟩, "a"⟩ =
      (none,
        ⟨[("10.0.0.5:7941", ⟨0, "10.0.0.5:7941"⟩)], 1,
          [Event.Lookup "", Event.NewClient "10.0.0.5:7941", Event.NewContext 10000000000,
            Event.AddActivityTask ⟨0, "10.0.0.5:7941"⟩ ⟨10000000000⟩ ⟨⟨some ""⟩, "a"⟩,
            Event.Cancel ⟨10000000000⟩]⟩) ∧
    AddDecisionTask sampleEnv NewClient ⟨⟨some ""⟩, "d"⟩ =
      (some "rejected",
        ⟨[("10.0.0.5:7941", ⟨0, "10.0.0.5:7941"⟩)], 1,
          [Event.Lookup "", Event.NewClient "10.0.0.5:7941", Event.NewContext 10000000000,
            Event.AddDecisionTask ⟨0, "10.0.0.5:7941"⟩ ⟨10000000000⟩ ⟨⟨some ""⟩, "d"⟩,
            Event.Cancel ⟨10000000000⟩]⟩) ∧
    PollForActivityTask sampleEnv NewClient ⟨⟨some ""⟩, "p"⟩ =
      ((some ⟨"task"⟩, none),
        ⟨[("10.0.0.5:7941", ⟨0, "10.0.0.5:7941"⟩)], 1,
          [Event.Lookup "", Event.NewClient "10.0.0.5:7941", Event.NewContext 180000000000,
            Event.PollForActivityTask ⟨0, "10.0.0.5:7941"⟩ ⟨180000000000⟩ ⟨⟨some ""⟩, "p"⟩,
            Event.Cancel ⟨180000000000⟩]⟩) ∧
    PollForDecisionTask sampleEnv NewClient ⟨⟨some ""⟩, "q"⟩ =
      ((none, none),
        ⟨[("10.0.0.5:7941", ⟨0, "10.0.0.5:7941"⟩)], 1,
          [Event.Lookup "", Event.NewClient "10.0.0.5:7941", Event.NewContext 180000000000,
            Event.PollForDecisionTask ⟨0, "10.0.0.5:7941"⟩ ⟨180000000000⟩ ⟨⟨some ""⟩, "q"⟩,
            Event.Cancel ⟨180000000000⟩]⟩) := by
  decide

/-- What `getThriftClient` yields right after the `Lookup` of `key`: the handle that
the cache then holds for the address, which is the one held before if there was one and
the newly built handle for that address otherwise, and the trace that results. -/
theorem getThriftClient_after_lookup (c : clientImpl) (key hostPort : String) :
    (getThriftClient (c.emit (Event.Lookup key)) hostPort).2.thriftCache.lookup hostPort =
        some (getThriftClient (c.emit (Event.Lookup key)) hostPort).1 ∧
    (∀ v, c.thriftCache.lookup hostPort = some v →
        (getThriftClient (c.emit (Event.Lookup key)) hostPort).1 = v) ∧
    (c.thriftCache.lookup hostPort = none →
        (getThriftClient (c.emit (Event.Lookup key)) hostPort).1 = ⟨c.handles, hostPort⟩) ∧
    (getThriftClient (c.emit (Event.Lookup key)) hostPort).2.trace =
        c.trace ++ [Event.Lookup key] ++
          (if (c.thriftCache.lookup hostPort).isSome then []
            else [Event.NewClient hostPort]) := by
  refine ⟨getThriftClient_lookup _ _, ?_, ?_, ?_⟩
  · intro v hv
    have hv2 : (c.emit (Event.Lookup key)).thriftCache.lookup hostPort = some v := hv
    rw [getThriftClient_hit _ _ v hv2]
  · intro hn
    have hn2 : (c.emit (Event.Lookup key)).thriftCache.lookup hostPort = none := hn
    rw [getThriftClient_miss _ _ hn2]
    rfl
  · rw [getThriftClient_trace]
    rfl

/-- C4, amended. For each of the four routing operations, a request whose task-list
name is the empty string is routed like any other.  The resolver is consulted with the
empty key.  When it fails with `e`, the operation returns `e` (with a nil response for
the polls), the `Lookup` is the only call made and the cache is as before.  When it
yields `host`, exactly one remote call is issued, through the handle that the cache
holds for the address of `host` after the call (the one it held before if any, else the
handle newly built for that address), with the timeout of the operation and the request
as given, and the operation returns the result of that call. -/
theorem empty_key_is_routed_like_any_other (env : Collaborators) (c : clientImpl) :
    (∀ r : AddActivityTaskRequest, r.GetTaskList.GetName = "" →
      (∀ e, env.Lookup "" = Except.error e →
        AddActivityTask env c r =
          (some e, ⟨c.thriftCache, c.handles, c.trace ++ [Event.Lookup ""]⟩)) ∧
      (∀ host, env.Lookup "" = Except.ok host →
        ∃ client : Handle,
          (AddActivityTask env c r).2.thriftCache.lookup host.addr = some client ∧
          (∀ v, c.thriftCache.lookup host.addr = some v → client = v) ∧
          (c.thriftCache.lookup host.addr = none → client = ⟨c.handles, host.addr⟩) ∧
          (AddActivityTask env c r).1 = env.AddActivityTask client ⟨10000000000⟩ r ∧
          (AddActivityTask env c r).2.trace =
            c.trace ++ [Event.Lookup ""] ++
              (if (c.thriftCache.lookup host.addr).isSome then []
                else [Event.NewClient host.addr]) ++
              [Event.NewContext 10000000000, Event.AddActivityTask client ⟨10000000000⟩ r,
                Event.Cancel ⟨10000000000⟩])) ∧
    (∀ r : AddDecisionTaskRequest, r.GetTaskList.GetName = "" →
      (∀ e, env.Lookup "" = Except.error e →
        AddDecisionTask env c r =
          (some e, ⟨c.thriftCache, c.handles, c.trace ++ [Event.Lookup ""]⟩)) ∧
      (∀ host, env.Lookup "" = Except.ok host →
        ∃ client : Handle,
          (AddDecisionTask env c r).2.thriftCache.lookup host.addr = some client ∧
          (∀ v, c.thriftCache.lookup host.addr = some v → client = v) ∧
          (c.thriftCache.lookup host.addr = none → client = ⟨c.handles, host.addr⟩) ∧
          (AddDecisionTask env c r).1 = env.AddDecisionTask client ⟨10000000000⟩ r ∧
          (AddDecisionTask env c r).2.trace =
            c.trace ++ [Event.Lookup ""] ++
              (if (c.thriftCache.lookup host.addr).isSome then []
                else [Event.NewClient host.addr]) ++
              [Event.NewContext 10000000000, Event.AddDecisionTask client ⟨10000000000⟩ r,
                Event.Cancel ⟨10000000000⟩])) ∧
    (∀ r : PollForActivityTaskRequest, r.GetTaskList.GetName = "" →
      (∀ e, env.Lookup "" = Except.error e →
        PollForActivityTask env c r =
          ((none, some e), ⟨c.thriftCache, c.handles, c.trace ++ [Event.Lookup ""]⟩)) ∧
      (∀ host, env.Lookup "" = Except.ok host →
        ∃ client : Handle,
          (PollForActivityTask env c r).2.thriftCache.lookup host.addr = some client ∧
          (∀ v, c.thriftCache.lookup host.addr = some v → client = v) ∧
          (c.thriftCache.lookup host.addr = none → client = ⟨c.handles, host.addr⟩) ∧
          (PollForActivityTask env c r).1 = env.PollForActivityTask client ⟨180000000000⟩ r ∧
          (PollForActivityTask env c r).2.trace =
            c.trace ++ [Event.Lookup ""] ++
              (if (c.thriftCache.lookup host.addr).isSome then []
                else [Event.NewClient host.addr]) ++
              [Event.NewContext 180000000000, Event.PollForActivityTask client ⟨180000000000⟩ r,
                Event.Cancel ⟨180000000000⟩])) ∧
    (∀ r : PollForDecisionTaskRequest, r.GetTaskList.GetName = "" →
      (∀ e, env.Lookup "" = Except.error e →
        PollForDecisionTask env c r =
          ((none, some e), ⟨c.thriftCache, c.handles, c.trace ++ [Event.Lookup ""]⟩)) ∧
      (∀ host, env.Lookup "" = Except.ok host →
        ∃ client : Handle,
          (PollForDecisionTask env c r).2.thriftCache.lookup host.addr = some client ∧
          (∀ v, c.thriftCache.lookup host.addr = some v → client = v) ∧
          (c.thriftCache.lookup host.addr = none → client = ⟨c.handles, host.addr⟩) ∧
          (PollForDecisionTask env c r).1 = env.PollForDecisionTask client ⟨180000000000⟩ r ∧
          (PollForDecisionTask env c r).2.trace =
            c.trace ++ [Event.Lookup ""] ++
              (if (c.thriftCache.lookup host.addr).isSome then []
                else [Event.NewClient host.addr]) ++
              [Event.NewContext 180000000000, Event.PollForDecisionTask client ⟨180000000000⟩ r,
                Event.Cancel ⟨180000000000⟩])) := by
  refine ⟨?_, ?_, ?_, ?_⟩ <;> intro r hr
  · refine ⟨?_, ?_⟩
    · intro e hl
      rw [AddActivityTask_error env c r e (by rw [hr]; exact hl), hr]
      rfl
    · intro host hl
      obtain ⟨k1, k2, k3, k4⟩ := getThriftClient_after_lookup c "" host.addr
      have hl2 : env.Lookup r.GetTaskList.GetName = Except.ok host := by rw [hr]; exact hl
      refine ⟨(getThriftClient (c.emit (Event.Lookup "")) host.addr).1, ?_, k2, k3, ?_, ?_⟩
      · rw [AddActivityTask_ok env c r host hl2 _ rfl, hr]; exact k1
      · rw [AddActivityTask_ok env c r host hl2 _ rfl, hr]
      · rw [AddActivityTask_ok env c r host hl2 _ rfl, hr]; simp only [k4]
  · refine ⟨?_, ?_⟩
    · intro e hl
      rw [AddDecisionTask_error env c r e (by rw [hr]; exact hl), hr]
      rfl
    · intro host hl
      obtain ⟨k1, k2, k3, k4⟩ := getThriftClient_after_lookup c "" host.addr
      have hl2 : env.Lookup r.GetTaskList.GetName = Except.ok host := by rw [hr]; exact hl
      refine ⟨(getThriftClient (c.emit (Event.Lookup "")) host.addr).1, ?_, k2, k3, ?_, ?_⟩
      · rw [AddDecisionTask_ok env c r host hl2 _ rfl, hr]; exact k1
      · rw [AddDecisionTask_ok env c r host hl2 _ rfl, hr]
      · rw [AddDecisionTask_ok env c r host hl2 _ rfl, hr]; simp only [k4]
  · refine ⟨?_, ?_⟩
    · intro e hl
      rw [PollForActivityTask_error env c r e (by rw [hr]; exact hl), hr]
      rfl
    · intro host hl
      obtain ⟨k1, k2, k3, k4⟩ := getThriftClient_after_lookup c "" host.addr
      have hl2 : env.Lookup r.GetTaskList.GetName = Except.ok host := by rw [hr]; exact hl
      refine ⟨(getThriftClient (c.emit (Event.Lookup "")) host.addr).1, ?_, k2, k3, ?_, ?_⟩
      · rw [PollForActivityTask_ok env c r host hl2 _ rfl, hr]; exact k1
      · rw [PollForActivityTask_ok env c r host hl2 _ rfl, hr]
      · rw [PollForActivityTask_ok env c r host hl2 _ rfl, hr]; simp only [k4]
  · refine ⟨?_, ?_⟩
    · intro e hl
      rw [PollForDecisionTask_error env c r e (by rw [hr]; exact hl), hr]
      rfl
    · intro host hl
      obtain ⟨k1, k2, k3, k4⟩ := getThriftClient_after_lookup c "" host.addr
      have hl2 : env.Lookup r.GetTaskList.GetName = Except.ok host := by rw [hr]; exact hl
      refine ⟨(getThriftClient (c.emit (Event.Lookup "")) host.addr).1, ?_, k2, k3, ?_, ?_⟩
      · rw [PollForDecisionTask_ok env c r host hl2 _ rfl, hr]; exact k1
      · rw [PollForDecisionTask_ok env c r host hl2 _ rfl, hr]
      · rw [PollForDecisionTask_ok env c r host hl2 _ rfl, hr]; simp only [k4]

/-- C4 amended, at an `AddActivityTask` request with an empty task-list name on a new
client, where the resolver places the empty key on `10.0.0.5:7941`. -/
theorem empty_key_is_routed_like_any_other_witness :
    (⟨⟨some ""⟩, "a"⟩ : AddActivityTaskRequest).GetTaskList.GetName = "" ∧
    sampleEnv.Lookup "" = Except.ok ⟨"10.0.0.5:7941"⟩ ∧
    (∃ client : Handle,
      (AddActivityTask sampleEnv NewClient ⟨⟨some ""⟩, "a"⟩).2.thriftCache.lookup
          "10.0.0.5:7941" = some client ∧
      (∀ v, NewClient.thriftCache.lookup "10.0.0.5:7941" = some v → client = v) ∧
      (NewClient.thriftCache.lookup "10.0.0.5:7941" = none →
        client = ⟨NewClient.handles, "10.0.0.5:7941"⟩) ∧
      (AddActivityTask sampleEnv NewClient ⟨⟨some ""⟩, "a"⟩).1 =
        sampleEnv.AddActivityTask client ⟨10000000000⟩ ⟨⟨some ""⟩, "a"⟩ ∧
      (AddActivityTask sampleEnv NewClient ⟨⟨some ""⟩, "a"⟩).2.trace =
        NewClient.trace ++ [Event.Lookup ""] ++
          (if (NewClient.thriftCache.lookup "10.0.0.5:7941").isSome then []
            else [Event.NewClient "10.0.0.5:7941"]) ++
          [Event.NewContext 10000000000,
            Event.AddActivityTask client ⟨10000000000⟩ ⟨⟨some ""⟩, "a"⟩,
            Event.Cancel ⟨10000000000⟩]) :=
  ⟨rfl, rfl,
    ((empty_key_is_routed_like_any_other sampleEnv NewClient).1 ⟨⟨some ""⟩, "a"⟩ rfl).2
      ⟨"10.0.0.5:7941"⟩ rfl⟩

/-! ## Handles built and handles cached -/

theorem consistent_NewClient : NewClient.Consistent := by
  intro h
  simp [clientImpl.built, NewClient]

theorem consistent_getThriftClient (c : clientImpl) (h : String) (hc : c.Consistent) :
    (getThriftClient c h).2.Consistent := by
  intro k
  cases hl : c.thriftCache.lookup h with
  | some client =>
    rw [getThriftClient_hit c h client hl]
    exact hc k
  | none =>
    by_cases hk : k = h
    · subst hk
      have h0 := hc k
      rw [hl] at h0
      rw [getThriftClient_lookup]
      rw [getThriftClient_miss c k hl]
      simp only [clientImpl.built] at h0 ⊢
      simp [List.count_append, h0]
    · rw [getThriftClient_other c h k hk]
      rw [← hc k, getThriftClient_miss c h hl]
      have h0 : List.count (Event.NewClient k) [Event.NewClient h] = 0 :=
        List.count_eq_zero.mpr (by simpa using hk)
      simp [clientImpl.built, List.count_append, h0]

/-- Appending calls other than handle constructions keeps the agreement. -/
theorem consistent_append (c : clientImpl) (evs : List Event) (hc : c.Consistent)
    (hev : ∀ x, Event.NewClient x ∉ evs) :
    clientImpl.Consistent ⟨c.thriftCache, c.handles, c.trace ++ evs⟩ := by
  intro k
  have h0 : evs.count (Event.NewClient k) = 0 := List.count_eq_zero.mpr (hev k)
  have := hc k
  simp only [clientImpl.built] at this ⊢
  simp [List.count_append, h0, this]

/-- Shape of the state after one routing call: either only the `Lookup` was made, or
`getThriftClient` ran after it and was followed by calls that build no handle. -/
theorem Call.run_cases (env : Collaborators) (c : clientImpl) (call : Call) :
    ∃ key : String,
      call.run env c = ⟨c.thriftCache, c.handles, c.trace ++ [Event.Lookup key]⟩ ∨
      ∃ (hp : String) (evs : List Event), (∀ x, Event.NewClient x ∉ evs) ∧
        call.run env c =
          ⟨(getThriftClient (c.emit (Event.Lookup key)) hp).2.thriftCache,
            (getThriftClient (c.emit (Event.Lookup key)) hp).2.handles,
            (getThriftClient (c.emit (Event.Lookup key)) hp).2.trace ++ evs⟩ := by
  cases call with
  | AddActivityTask r =>
    refine ⟨r.GetTaskList.GetName, ?_⟩
    cases hl : env.Lookup r.GetTaskList.GetName with
    | error e => left; simp [Call.run, AddActivityTask_error env c r e hl, clientImpl.emit]
    | ok host =>
      right
      refine ⟨host.addr, _, ?_, congrArg Prod.snd (AddActivityTask_ok env c r host hl _ rfl)⟩
      intro x; simp
  | AddDecisionTask r =>
    refine ⟨r.GetTaskList.GetName, ?_⟩
    cases hl : env.Lookup r.GetTaskList.GetName with
    | error e => left; simp [Call.run, AddDecisionTask_error env c r e hl, clientImpl.emit]
    | ok host =>
      right
      refine ⟨host.addr, _, ?_, congrArg Prod.snd (AddDecisionTask_ok env c r host hl _ rfl)⟩
      intro x; simp
  | PollForActivityTask r =>
    refine ⟨r.GetTaskList.GetName, ?_⟩
    cases hl : env.Lookup r.GetTaskList.GetName with
    | error e => left; simp [Call.run, PollForActivityTask_error env c r e hl, clientImpl.emit]
    | ok host =>
      right
      refine ⟨host.addr, _, ?_, congrArg Prod.snd (PollForActivityTask_ok env c r host hl _ rfl)⟩
      intro x; simp
  | PollForDecisionTask r =>
    refine ⟨r.GetTaskList.GetName, ?_⟩
    cases hl : env.Lookup r.GetTaskList.GetName with
    | error e => left; simp [Call.run, PollForDecisionTask_error env c r e hl, clientImpl.emit]
    | ok host =>
      right
      refine ⟨host.addr, _, ?_, congrArg Prod.snd (PollForDecisionTask_ok env c r host hl _ rfl)⟩
      intro x; simp

theorem Call.run_consistent (env : Collaborators) (c : clientImpl) (call : Call)
    (hc : c.Consistent) : (call.run env c).Consistent := by
  obtain ⟨key, h | ⟨hp, evs, hev, h⟩⟩ := Call.run_cases env c call
  · rw [h]
    exact consistent_append c _ hc (by intro x; simp)
  · rw [h]
    refine consistent_append _ evs (consistent_getThriftClient _ hp ?_) hev
    exact consistent_append c _ hc (by intro x; simp)

theorem Call.run_keeps (env : Collaborators) (c : clientImpl) (call : Call) (k : String)
    (v : Handle) (hk : c.thriftCache.lookup k = some v) :
    (call.run env c).thriftCache.lookup k = some v := by
  obtain ⟨key, h | ⟨hp, evs, _, h⟩⟩ := Call.run_cases env c call
  · rw [h]; exact hk
  · rw [h]; exact getThriftClient_keeps (c.emit (Event.Lookup key)) hp k v hk

theorem runCalls_consistent (calls : List (Collaborators × Call)) (c : clientImpl)
    (hc : c.Consistent) : (runCalls c calls).Consistent := by
  induction calls generalizing c with
  | nil => exact hc
  | cons p rest ih =>
    obtain ⟨env, call⟩ := p
    exact ih _ (Call.run_consistent env c call hc)

theorem runCalls_keeps (calls : List (Collaborators × Call)) (c : clientImpl) (k : String)
    (v : Handle) (hk : c.thriftCache.lookup k = some v) :
    (runCalls c calls).thriftCache.lookup k = some v := by
  induction calls generalizing c with
  | nil => exact hk
  | cons p rest ih =>
    obtain ⟨env, call⟩ := p
    exact ih _ (Call.run_keeps env c call k v hk)

theorem runGets_consistent (hosts : List String) (c : clientImpl) (hc : c.Consistent) :
    (runGets c hosts).2.Consistent := by
  induction hosts generalizing c with
  | nil => exact hc
  | cons h hs ih => exact ih _ (consistent_getThriftClient c h hc)

theorem runGets_keeps (hosts : List String) (c : clientImpl) (k : String) (v : Handle)
    (hk : c.thriftCache.lookup k = some v) :
    (runGets c hosts).2.thriftCache.lookup k = some v := by
  induction hosts generalizing c with
  | nil => exact hk
  | cons h hs ih => exact ih _ (getThriftClient_keeps c h k v hk)

/-- Every call of a run returned the handle that the final cache holds for its
address. -/
theorem runGets_results (hosts : List String) (c : clientImpl) :
    ∀ p ∈ List.zip hosts (runGets c hosts).1,
      (runGets c hosts).2.thriftCache.lookup p.1 = some p.2 := by
  induction hosts generalizing c with
  | nil => intro p hp; simp [runGets] at hp
  | cons h hs ih =>
    intro p hp
    simp only [runGets, List.zip_cons_cons, List.mem_cons] at hp
    rcases hp with rfl | hp
    · exact runGets_keeps hs _ _ _ (getThriftClient_lookup c h)
    · exact ih _ p hp

theorem consistent_built_le_one (c : clientImpl) (hc : c.Consistent) (h : String) :
    c.built h ≤ 1 := by
  rw [hc h]; split <;> simp

theorem runGets_length (hosts : List String) (c : clientImpl) :
    (runGets c hosts).1.length = hosts.length := by
  induction hosts generalizing c with
  | nil => rfl
  | cons h hs ih => simp [runGets, ih]

/-! ## Reuse of a cached handle (C2) -/

/-- C2. For every address `h` and every state whose cache holds a handle for `h`,
`getThriftClient` returns that handle and changes nothing: no handle is built.
Consequently, in a sequential run of `getThriftClient` calls on a new client, one
result is returned per call, at most one handle is built per address, and any two
calls for the same address return the same handle. -/
theorem cached_handle_is_reused :
    (∀ (c : clientImpl) (h : String) (client : Handle),
      c.thriftCache.lookup h = some client → getThriftClient c h = (client, c)) ∧
    (∀ hosts : List String,
      (runGets NewClient hosts).1.length = hosts.length ∧
      (∀ h, (runGets NewClient hosts).2.built h ≤ 1) ∧
      (∀ p ∈ List.zip hosts (runGets NewClient hosts).1,
        ∀ q ∈ List.zip hosts (runGets NewClient hosts).1, p.1 = q.1 → p.2 = q.2)) := by
  refine ⟨getThriftClient_hit, fun hosts => ⟨runGets_length hosts _, ?_, ?_⟩⟩
  · intro h
    exact consistent_built_le_one _ (runGets_consistent hosts _ consistent_NewClient) h
  · intro p hp q hq hpq
    have h1 := runGets_results hosts NewClient p hp
    have h2 := runGets_results hosts NewClient q hq
    rw [hpq, h2] at h1
    exact (Option.some.inj h1).symm

/-- C2 on a cache that holds the handle built for `10.0.0.5:7941`. -/
theorem cached_handle_is_reused_witness :
    (⟨[("10.0.0.5:7941", ⟨0, "10.0.0.5:7941"⟩)], 1,
        [Event.NewClient "10.0.0.5:7941"]⟩ : clientImpl).thriftCache.lookup "10.0.0.5:7941" =
      some ⟨0, "10.0.0.5:7941"⟩ ∧
    getThriftClient
        ⟨[("10.0.0.5:7941", ⟨0, "10.0.0.5:7941"⟩)], 1, [Event.NewClient "10.0.0.5:7941"]⟩
        "10.0.0.5:7941" =
      (⟨0, "10.0.0.5:7941"⟩,
        ⟨[("10.0.0.5:7941", ⟨0, "10.0.0.5:7941"⟩)], 1, [Event.NewClient "10.0.0.5:7941"]⟩) :=
  ⟨by decide, cached_handle_is_reused.1 _ _ _ (by decide)⟩

/-! ## Monotonicity of the cache (C5) -/

/-- C5. After `getThriftClient c h` every entry that the cache held is still there
with the same handle, and every address other than `h` is bound as before, so `h` is
the only key that can appear.  Across any sequence of routing operations entries are
likewise kept with their handle, and on a client that started with an empty cache the
handles built and the cache agree: one handle was built for every cached address,
none for any other, hence at most one per address. -/
theorem cache_only_grows :
    (∀ (c : clientImpl) (h k : String) (v : Handle),
      c.thriftCache.lookup k = some v →
        (getThriftClient c h).2.thriftCache.lookup k = some v) ∧
    (∀ (c : clientImpl) (h k : String), k ≠ h →
      (getThriftClient c h).2.thriftCache.lookup k = c.thriftCache.lookup k) ∧
    (∀ (c : clientImpl) (calls : List (Collaborators × Call)) (k : String) (v : Handle),
      c.thriftCache.lookup k = some v →
        (runCalls c calls).thriftCache.lookup k = some v) ∧
    (∀ (calls : List (Collaborators × Call)),
      (runCalls NewClient calls).Consistent ∧
      ∀ h, (runCalls NewClient calls).built h ≤ 1) := by
  refine ⟨getThriftClient_keeps, getThriftClient_other, ?_, ?_⟩
  · intro c calls k v hk
    exact runCalls_keeps calls c k v hk
  · intro calls
    have hc := runCalls_consistent calls NewClient consistent_NewClient
    exact ⟨hc, consistent_built_le_one _ hc⟩

/-- C5 on a cache holding `10.0.0.5:7941`: a call for another address keeps the
entry and leaves a third address unbound; so does a routing call. -/
theorem cache_only_grows_witness :
    (⟨[("10.0.0.5:7941", ⟨0, "10.0.0.5:7941"⟩)], 1,
        [Event.NewClient "10.0.0.5:7941"]⟩ : clientImpl).thriftCache.lookup "10.0.0.5:7941" =
      some ⟨0, "10.0.0.5:7941"⟩ ∧
    (getThriftClient
        ⟨[("10.0.0.5:7941", ⟨0, "10.0.0.5:7941"⟩)], 1, [Event.NewClient "10.0.0.5:7941"]⟩
        "10.0.0.6:7941").2.thriftCache.lookup "10.0.0.5:7941" = some ⟨0, "10.0.0.5:7941"⟩ ∧
    "10.0.0.7:7941" ≠ "10.0.0.6:7941" ∧
    (getThriftClient
        ⟨[("10.0.0.5:7941", ⟨0, "10.0.0.5:7941"⟩)], 1, [Event.NewClient "10.0.0.5:7941"]⟩
        "10.0.0.6:7941").2.thriftCache.lookup "10.0.0.7:7941" =
      (⟨[("10.0.0.5:7941", ⟨0, "10.0.0.5:7941"⟩)], 1,
        [Event.NewClient "10.0.0.5:7941"]⟩ : clientImpl).thriftCache.lookup "10.0.0.7:7941" ∧
    (runCalls
        ⟨[("10.0.0.5:7941", ⟨0, "10.0.0.5:7941"⟩)], 1, [Event.NewClient "10.0.0.5:7941"]⟩
        [(sampleEnv, Call.AddActivityTask ⟨⟨some "orders-tasklist"⟩, "a"⟩),
          (sampleEnv, Call.PollForDecisionTask ⟨⟨some "tl-unknown"⟩, "p"⟩)]).thriftCache.lookup
        "10.0.0.5:7941" = some ⟨0, "10.0.0.5:7941"⟩ :=
  ⟨by decide, cache_only_grows.1 _ _ _ _ (by decide), by decide,
    cache_only_grows.2.1 _ _ _ (by decide), cache_only_grows.2.2.1 _ _ _ _ (by decide)⟩

end Matching

namespace Sysworkflow

/-! ## `NewHistoryBlobKey` (C9) -/

theorem length_eq_zero_iff (s : GoString) : (s.length == 0) = true ↔ s = [] := by
  cases s <;> simp

/-- C9. `NewHistoryBlobKey` returns a nil key with the error "all inputs required to
be non-empty", without calling `blob.NewKey`, exactly when at least one of its five
inputs is empty; otherwise it makes one call `blob.NewKey("history", d ++ w ++ r,
pageToken, failoverVersion)`, where `d`, `w`, `r` are the decimal renderings of the
64-bit fingerprints of `domainID`, `workflowID`, `runID`, and returns its result. -/
theorem NewHistoryBlobKey_result {K : Type} (Fingerprint64 : GoString → Nat)
    (NewKey : GoString → List GoString → Option K × Option Err)
    (domainID workflowID runID pageToken failoverVersion : GoString) :
    ((domainID = [] ∨ workflowID = [] ∨ runID = [] ∨ pageToken = [] ∨ failoverVersion = []) ↔
      NewHistoryBlobKey Fingerprint64 NewKey domainID workflowID runID pageToken
          failoverVersion =
        ((none, some "all inputs required to be non-empty"), [])) ∧
    (¬ (domainID = [] ∨ workflowID = [] ∨ runID = [] ∨ pageToken = [] ∨
        failoverVersion = []) →
      NewHistoryBlobKey Fingerprint64 NewKey domainID workflowID runID pageToken
          failoverVersion =
        (NewKey (ascii "history")
            [decimal (Fingerprint64 domainID % 2 ^ 64) ++
              decimal (Fingerprint64 workflowID % 2 ^ 64) ++
              decimal (Fingerprint64 runID % 2 ^ 64), pageToken, failoverVersion],
          [(ascii "history",
            [decimal (Fingerprint64 domainID % 2 ^ 64) ++
              decimal (Fingerprint64 workflowID % 2 ^ 64) ++
              decimal (Fingerprint64 runID % 2 ^ 64), pageToken, failoverVersion])])) := by
  have hcond : ((domainID.length == 0 || workflowID.length == 0 || runID.length == 0 ||
      pageToken.length == 0 || failoverVersion.length == 0) = true) ↔
      (domainID = [] ∨ workflowID = [] ∨ runID = [] ∨ pageToken = [] ∨
        failoverVersion = []) := by
    simp only [Bool.or_eq_true, length_eq_zero_iff, or_assoc]
  have hjoin : ∀ a b c : GoString, Join [a, b, c] [] = a ++ b ++ c := by
    intro a b c
    simp [Join, List.intercalate]
  by_cases hE : (domainID = [] ∨ workflowID = [] ∨ runID = [] ∨ pageToken = [] ∨
      failoverVersion = [])
  · have hc := hcond.mpr hE
    refine ⟨⟨fun _ => ?_, fun _ => hE⟩, fun hn => absurd hE hn⟩
    simp only [NewHistoryBlobKey, hc, if_true]
  · have hc : ¬ ((domainID.length == 0 || workflowID.length == 0 || runID.length == 0 ||
        pageToken.length == 0 || failoverVersion.length == 0) = true) :=
      fun h => hE (hcond.mp h)
    have hval : NewHistoryBlobKey Fingerprint64 NewKey domainID workflowID runID pageToken
          failoverVersion =
        (NewKey (ascii "history")
            [decimal (Fingerprint64 domainID % 2 ^ 64) ++
              decimal (Fingerprint64 workflowID % 2 ^ 64) ++
              decimal (Fingerprint64 runID % 2 ^ 64), pageToken, failoverVersion],
          [(ascii "history",
            [decimal (Fingerprint64 domainID % 2 ^ 64) ++
              decimal (Fingerprint64 workflowID % 2 ^ 64) ++
              decimal (Fingerprint64 runID % 2 ^ 64), pageToken, failoverVersion])]) := by
      simp only [NewHistoryBlobKey, hc, hjoin, HistoryBlobKeyExt]
      rfl
    refine ⟨⟨fun h => absurd h hE, fun h => ?_⟩, fun _ => hval⟩
    rw [hval] at h
    have h2 := congrArg Prod.snd h
    simp at h2

/-- C9 at five non-empty inputs, with the rendering of the largest fingerprint. -/
theorem NewHistoryBlobKey_result_witness :
    decimal (2 ^ 64 - 1) = ascii "18446744073709551615" ∧
    ¬ ((ascii "dom" = [] ∨ ascii "wf" = [] ∨ ascii "r" = [] ∨ ascii "1" = [] ∨
        ascii "-24" = [])) ∧
    NewHistoryBlobKey sampleFingerprint64 sampleNewKey (ascii "dom") (ascii "wf") (ascii "r")
        (ascii "1") (ascii "-24") =
      (sampleNewKey (ascii "history")
          [decimal (sampleFingerprint64 (ascii "dom") % 2 ^ 64) ++
            decimal (sampleFingerprint64 (ascii "wf") % 2 ^ 64) ++
            decimal (sampleFingerprint64 (ascii "r") % 2 ^ 64), ascii "1", ascii "-24"],
        [(ascii "history",
          [decimal (sampleFingerprint64 (ascii "dom") % 2 ^ 64) ++
            decimal (sampleFingerprint64 (ascii "wf") % 2 ^ 64) ++
            decimal (sampleFingerprint64 (ascii "r") % 2 ^ 64), ascii "1", ascii "-24"])]) :=
  ⟨by decide, by decide,
    (NewHistoryBlobKey_result sampleFingerprint64 sampleNewKey (ascii "dom") (ascii "wf")
      (ascii "r") (ascii "1") (ascii "-24")).2 (by decide)⟩

/-! ## Maps built by successive assignments -/

theorem mapSet_fresh {β : Type} (m : List (String × β)) (k : String) (v : β)
    (hk : ∀ p ∈ m, p.1 ≠ k) : mapSet m k v = (k, v) :: m := by
  unfold mapSet
  congr 1
  rw [List.filter_eq_self]
  intro p hp
  simpa using hk p hp

/-- Assigning distinct keys, none of them bound yet, stacks the bindings. -/
theorem foldl_mapSet_fresh {α β : Type} (f : α → β) (ms : List (String × α))
    (acc : List (String × β)) (hnd : (ms.map Prod.fst).Nodup)
    (hdis : ∀ p ∈ ms, ∀ q ∈ acc, q.1 ≠ p.1) :
    ms.foldl (fun m p => mapSet m p.1 (f p.2)) acc =
      (ms.map (fun p => (p.1, f p.2))).reverse ++ acc := by
  induction ms generalizing acc with
  | nil => rfl
  | cons a ms ih =>
    simp only [List.map_cons, List.nodup_cons] at hnd
    simp only [List.foldl_cons, List.map_cons, List.reverse_cons, List.append_assoc,
      List.singleton_append]
    rw [mapSet_fresh acc a.1 (f a.2) (fun q hq => hdis a (List.mem_cons_self _ _) q hq)]
    apply ih _ hnd.2
    intro p hp q hq
    rcases List.mem_cons.mp hq with rfl | hq
    · intro e
      exact hnd.1 (e ▸ List.mem_map_of_mem Prod.fst hp)
    · exact hdis p (List.mem_cons_of_mem _ hp) q hq

theorem lookup_of_mem_nodup {β : Type} (l : List (String × β)) (k : String) (v : β)
    (hnd : (l.map Prod.fst).Nodup) (hm : (k, v) ∈ l) : l.lookup k = some v := by
  induction l with
  | nil => cases hm
  | cons a l ih =>
    obtain ⟨ak, av⟩ := a
    simp only [List.map_cons, List.nodup_cons] at hnd
    rcases List.mem_cons.mp hm with e | hm2
    · cases e
      simp [List.lookup]
    · have hne : k ≠ ak := by
        intro e
        subst e
        exact hnd.1 (List.mem_map_of_mem Prod.fst hm2)
      have hb : (k == ak) = false := by simpa using hne
      simp only [List.lookup, hb]
      exact ih hnd.2 hm2

/-! ## `ConvertHeaderToTags` (C10) -/

theorem encodeField_keys (fs : List (String × FieldValue)) :
    ((fs.flatMap encodeField).map Prod.fst).Sublist (fs.map Prod.fst) := by
  induction fs with
  | nil => simp
  | cons a fs ih =>
    obtain ⟨name, fv⟩ := a
    rcases fv with (_ | s) | (_ | n)
    · simpa [List.flatMap_cons, encodeField] using List.Sublist.cons name ih
    · simpa [List.flatMap_cons, encodeField] using ih
    · simpa [List.flatMap_cons, encodeField] using List.Sublist.cons name ih
    · simpa [List.flatMap_cons, encodeField] using ih

theorem fields_keys_nodup (h : HistoryBlobHeader) : (h.fields.map Prod.fst).Nodup := by
  simp only [HistoryBlobHeader.fields, List.map_cons, List.map_nil]
  decide

theorem members_keys_nodup (h : HistoryBlobHeader) : ((members h).map Prod.fst).Nodup :=
  (encodeField_keys h.fields).nodup (fields_keys_nodup h)

/-- The tags of a header: one per member of the encoded object. -/
theorem ConvertHeaderToTags_some (fmtFloat : Int → GoString) (h : HistoryBlobHeader) :
    ConvertHeaderToTags fmtFloat (some h) =
      (some ((members h).map (fun p => (p.1, Sprintf fmtFloat (decodeScalar p.2)))), none) := by
  have h1 := foldl_mapSet_fresh decodeScalar (members h) [] (members_keys_nodup h)
    (by intro p _ q hq; cases hq)
  have hk : (((members h).map (fun p => (p.1, decodeScalar p.2))).reverse.map Prod.fst).Nodup := by
    rw [List.map_reverse, List.nodup_reverse, List.map_map]
    exact members_keys_nodup h
  have h2 := foldl_mapSet_fresh (Sprintf fmtFloat)
    ((members h).map (fun p => (p.1, decodeScalar p.2))).reverse [] hk
    (by intro p _ q hq; cases hq)
  simp only [ConvertHeaderToTags, Marshal, Unmarshal, Option.getD]
  rw [h1, List.append_nil, h2, List.append_nil, List.map_reverse, List.reverse_reverse,
    List.map_map]
  rfl

theorem coerceFrom_valid (s : GoString) :
    ∀ skip : Nat, validFrom skip s = true → coerceFrom skip s = s := by
  induction s with
  | nil => intro skip _; cases skip <;> rfl
  | cons b rest ih =>
    intro skip hv
    cases skip with
    | succ k =>
      simp only [validFrom] at hv
      simp only [coerceFrom, ih k hv]
    | zero =>
      simp only [validFrom] at hv
      simp only [coerceFrom]
      cases hr : runeLen (b :: rest) with
      | none => rw [hr] at hv; cases hv
      | some n =>
        rw [hr] at hv
        simp only [ih (n - 1) hv]

theorem mem_encodeField (name : String) (fv : FieldValue) (q : String × Scalar) :
    q ∈ encodeField (name, fv) ↔
      (∃ s, fv = FieldValue.str (some s) ∧ q = (name, Scalar.str (toValidUTF8 s))) ∨
      (∃ n, fv = FieldValue.int (some n) ∧ q = (name, Scalar.num n)) := by
  rcases fv with (_ | s) | (_ | n) <;> simp [encodeField]

theorem encodeField_key (a : String × FieldValue) (q : String × Scalar)
    (hq : q ∈ encodeField a) : q.1 = a.1 ∧ a.2.isSet = true := by
  obtain ⟨name, fv⟩ := a
  rcases (mem_encodeField name fv q).mp hq with ⟨s, rfl, rfl⟩ | ⟨n, rfl, rfl⟩ <;>
    simp [FieldValue.isSet]

theorem encodeField_nonempty (a : String × FieldValue) (ha : a.2.isSet = true) :
    ∃ v, (a.1, v) ∈ encodeField a := by
  obtain ⟨name, fv⟩ := a
  rcases fv with (_ | s) | (_ | n)
  · simp [FieldValue.isSet] at ha
  · exact ⟨_, (mem_encodeField _ _ _).mpr (Or.inl ⟨s, rfl, rfl⟩)⟩
  · simp [FieldValue.isSet] at ha
  · exact ⟨_, (mem_encodeField _ _ _).mpr (Or.inr ⟨n, rfl, rfl⟩)⟩

/-- C10, refuted: a header whose `DomainName` is the single byte FF, which is not
valid UTF-8, yields the tag `domain_name` with the value U+FFFD (bytes EF BF BD), not
the field's value. -/
theorem invalid_utf8_value_is_replaced :
    ConvertHeaderToTags sampleFmtFloat
        (some ⟨some [0xFF], none, none, none, none, none, none, none, none, none, none, none,
          none⟩) =
      (some [("domain_name", [0xEF, 0xBF, 0xBD])], none) ∧
    ([0xEF, 0xBF, 0xBD] : GoString) ≠ [0xFF] := by
  decide

/-- C10, amended. For every header, nil included, `ConvertHeaderToTags` returns no
error and a map; the map is empty for the nil header and for a header with all fields
nil; its keys are exactly the JSON names of the non-nil fields; and under the name of
every non-nil string field it holds the field's value coerced to valid UTF-8, which
is the value itself, unchanged, whenever that value is valid UTF-8. -/
theorem ConvertHeaderToTags_tags (fmtFloat : Int → GoString)
    (header : Option HistoryBlobHeader) :
    ∃ result : List (String × GoString),
      ConvertHeaderToTags fmtFloat header = (some result, none) ∧
      (header = none → result = []) ∧
      (∀ h, header = some h →
        (∀ k, (result.lookup k).isSome = true ↔
          ∃ fv, (k, fv) ∈ h.fields ∧ fv.isSet = true) ∧
        (∀ k s, (k, FieldValue.str (some s)) ∈ h.fields →
          result.lookup k = some (toValidUTF8 s) ∧
          (ValidString s = true → result.lookup k = some s)) ∧
        ((∀ p ∈ h.fields, p.2.isSet = false) → result = [])) := by
  cases header with
  | none =>
    refine ⟨[], rfl, fun _ => rfl, ?_⟩
    intro h hh
    cases hh
  | some h0 =>
    refine ⟨_, ConvertHeaderToTags_some fmtFloat h0, ?_, ?_⟩
    · intro hh
      cases hh
    · intro h hh
      cases hh
      have hnd : (((members h0).map
          (fun p => (p.1, Sprintf fmtFloat (decodeScalar p.2)))).map Prod.fst).Nodup := by
        rw [List.map_map]
        exact members_keys_nodup h0
      refine ⟨?_, ?_, ?_⟩
      · intro k
        rw [List.lookup_isSome_iff]
        constructor
        · rintro ⟨p, hp, hkp⟩
          obtain ⟨q, hq, rfl⟩ := List.mem_map.mp hp
          obtain ⟨a, ha, hqa⟩ := List.mem_flatMap.mp hq
          obtain ⟨h1, h2⟩ := encodeField_key a q hqa
          have hk : k = a.1 := by
            have : k = q.1 := by simpa using hkp
            rw [this, h1]
          exact ⟨a.2, by rw [hk]; exact ha, h2⟩
        · rintro ⟨fv, hmem, hset⟩
          obtain ⟨v, hv⟩ := encodeField_nonempty (k, fv) hset
          refine ⟨(k, Sprintf fmtFloat (decodeScalar v)), ?_, by simp⟩
          exact List.mem_map.mpr ⟨(k, v), List.mem_flatMap.mpr ⟨(k, fv), hmem, hv⟩, rfl⟩
      · intro k s hmem
        have hin : (k, toValidUTF8 s) ∈ (members h0).map
            (fun p => (p.1, Sprintf fmtFloat (decodeScalar p.2))) := by
          refine List.mem_map.mpr ⟨(k, Scalar.str (toValidUTF8 s)), ?_, rfl⟩
          exact List.mem_flatMap.mpr
            ⟨_, hmem, (mem_encodeField _ _ _).mpr (Or.inl ⟨s, rfl, rfl⟩)⟩
        have hl := lookup_of_mem_nodup _ k _ hnd hin
        refine ⟨hl, fun hv => ?_⟩
        rw [hl, toValidUTF8, coerceFrom_valid s 0 hv]
      · intro hall
        have hm : members h0 = [] := by
          apply List.eq_nil_iff_forall_not_mem.mpr
          intro q hq
          obtain ⟨a, ha, hqa⟩ := List.mem_flatMap.mp hq
          have := (encodeField_key a q hqa).2
          rw [hall a ha] at this
          cases this
        rw [hm]
        rfl

/-- C10 amended, on a header with a domain name, a workflow id and a first event id:
the key `workflow_id` is present and bound to the workflow id, unchanged. -/
theorem ConvertHeaderToTags_tags_witness :
    ∃ result : List (String × GoString),
      ConvertHeaderToTags sampleFmtFloat
          (some ⟨some (ascii "orders"), none, some (ascii "wf-1"), none, none, none, none,
            none, some 5, none, none, none, none⟩) = (some result, none) ∧
      (result.lookup "workflow_id").isSome = true ∧
      ValidString (ascii "wf-1") = true ∧
      result.lookup "workflow_id" = some (ascii "wf-1") := by
  obtain ⟨result, h1, _, h3⟩ := ConvertHeaderToTags_tags sampleFmtFloat
    (some ⟨some (ascii "orders"), none, some (ascii "wf-1"), none, none, none, none,
      none, some 5, none, none, none, none⟩)
  obtain ⟨hkeys, hvals, _⟩ := h3 _ rfl
  refine ⟨result, h1, ?_, by decide, ?_⟩
  · exact (hkeys "workflow_id").mpr ⟨FieldValue.str (some (ascii "wf-1")), by decide, rfl⟩
  · exact (hvals "workflow_id" (ascii "wf-1") (by decide)).2 (by decide)

end Sysworkflow

namespace Matching

/-! ## Concurrent callers: the invariant -/

/-- Replacing the element at a position moves a count by the difference of the two
elements. -/
theorem countP_set_add {α : Type} (p : α → Bool) (a b : α) :
    ∀ (l : List α) (i : Nat), l[i]? = some a →
      (l.set i b).countP p + (if p a then 1 else 0) =
        l.countP p + (if p b then 1 else 0)
  | [], _, h => by simp at h
  | x :: l, 0, h => by
    have hx : x = a := by simpa using h
    rw [hx, List.set_cons_zero, List.countP_cons, List.countP_cons]
    omega
  | x :: l, j + 1, h => by
    have hj : l[j]? = some a := by simpa using h
    have ih := countP_set_add p a b l j hj
    rw [List.set_cons_succ, List.countP_cons, List.countP_cons]
    omega

/-- Replacing the position of one goroutine moves the total rank by the difference of
the two ranks. -/
theorem sum_rank_set (a b : Pc) :
    ∀ (l : List Pc) (i : Nat), l[i]? = some a →
      ((l.set i b).map Pc.rank).sum + a.rank = (l.map Pc.rank).sum + b.rank
  | [], _, h => by simp at h
  | x :: l, 0, h => by
    have hx : x = a := by simpa using h
    rw [hx, List.set_cons_zero, List.map_cons, List.map_cons, List.sum_cons, List.sum_cons]
    omega
  | x :: l, j + 1, h => by
    have hj : l[j]? = some a := by simpa using h
    have ih := sum_rank_set a b l j hj
    rw [List.set_cons_succ, List.map_cons, List.map_cons, List.sum_cons, List.sum_cons]
    omega

theorem countP_pos_of_mem (p : Pc → Bool) (l : List Pc) (a : Pc) (ha : a ∈ l)
    (hp : p a = true) : 1 ≤ l.countP p :=
  List.countP_pos_iff.mpr ⟨a, ha, hp⟩

theorem isStore_le_isBuilding (l : List Pc) :
    l.countP Pc.isStore ≤ l.countP Pc.isBuilding := by
  apply List.countP_mono_left
  intro pc _ h
  cases pc <;> simp_all [Pc.isStore, Pc.isBuilding]

theorem isBuilding_le_holdsW (l : List Pc) :
    l.countP Pc.isBuilding ≤ l.countP Pc.holdsW := by
  apply List.countP_mono_left
  intro pc _ h
  cases pc <;> simp_all [Pc.isBuilding, Pc.holdsW]

/-- A step that replaces the position of goroutine `i` and leaves the client as it is
keeps the invariant, provided the lock state follows the positions and the new position
is justified by the cache. -/
theorem reachable_set (c0 : clientImpl) (hostPort : String) (n : Nat) (s : System)
    (inv : Reachable c0 hostPort n s) (i : Nat) (a b : Pc) (ha : s.threads[i]? = some a)
    (w : Bool) (r : Nat)
    (hW : (if b.holdsW then 1 else 0) + (if s.writer then 1 else 0) =
      (if a.holdsW then 1 else 0) + (if w then 1 else 0))
    (hR : (if b.holdsR then 1 else 0) + s.readers = (if a.holdsR then 1 else 0) + r)
    (hcar : ∀ x, b.carries = some x → s.c.thriftCache.lookup hostPort = some x)
    (habs : b.isBuilding = true → s.c.thriftCache.lookup hostPort = none)
    (hst : b.isStore = a.isStore) :
    Reachable c0 hostPort n ⟨r, w, s.c, s.threads.set i b⟩ := by
  obtain ⟨hl, hw, hr, hc, hab, hb⟩ := inv
  have cW := countP_set_add Pc.holdsW a b s.threads i ha
  have cR := countP_set_add Pc.holdsR a b s.threads i ha
  have cS := countP_set_add Pc.isStore a b s.threads i ha
  rw [hst] at cS
  refine ⟨by simpa using hl, ?_, ?_, ?_, ?_, ?_⟩
  · show (s.threads.set i b).countP Pc.holdsW = if w then 1 else 0
    omega
  · show (s.threads.set i b).countP Pc.holdsR = r
    omega
  · intro pc hpc x hx
    rcases List.mem_or_eq_of_mem_set hpc with h | h
    · exact hc pc h x hx
    · subst h; exact hcar x hx
  · intro pc hpc hx
    rcases List.mem_or_eq_of_mem_set hpc with h | h
    · exact hab pc h hx
    · subst h; exact habs hx
  · show s.c.built hostPort =
      c0.built hostPort + (if (s.c.thriftCache.lookup hostPort).isSome then 1 else 0) +
        (s.threads.set i b).countP Pc.isStore
    omega

theorem reachable_init (c0 : clientImpl) (hostPort : String) (n : Nat)
    (hmiss : c0.thriftCache.lookup hostPort = none) :
    Reachable c0 hostPort n (System.init c0 n) := by
  refine ⟨by simp [System.init], ?_, ?_, ?_, ?_, ?_⟩
  · simp [System.init, List.countP_replicate, Pc.holdsW]
  · simp [System.init, List.countP_replicate, Pc.holdsR]
  · intro pc hpc x hx
    simp only [System.init, List.mem_replicate] at hpc
    rw [hpc.2] at hx
    simp [Pc.carries] at hx
  · intro _ _ _
    exact hmiss
  · simp [System.init, List.countP_replicate, Pc.isStore, hmiss]

theorem built_construct (c : clientImpl) (hostPort : String) :
    clientImpl.built ⟨c.thriftCache, c.handles + 1, c.trace ++ [Event.NewClient hostPort]⟩
      hostPort = c.built hostPort + 1 := by
  simp [clientImpl.built, List.count_append]

/-- Every step keeps the invariant. -/
theorem step_reachable (c0 : clientImpl) (hostPort : String) (n : Nat) (s : System)
    (inv : Reachable c0 hostPort n s) (i : Nat) :
    Reachable c0 hostPort n (step hostPort i s) := by
  cases ha : s.threads[i]? with
  | none => simp only [step, ha]; exact inv
  | some pc =>
    have hmem : pc ∈ s.threads := List.getElem?_mem ha
    cases pc with
    | rlock =>
      simp only [step, ha]
      split
      · exact inv
      · exact reachable_set c0 hostPort n s inv i Pc.rlock Pc.read ha s.writer (s.readers + 1)
          (by simp [Pc.holdsW]) (by simp [Pc.holdsR]; omega) (by simp [Pc.carries])
          (by simp [Pc.isBuilding]) rfl
    | read =>
      simp only [step, ha]
      refine reachable_set c0 hostPort n s inv i Pc.read _ ha s.writer s.readers
          (by simp [Pc.holdsW]) (by simp [Pc.holdsR]) ?_ (by simp [Pc.isBuilding]) rfl
      intro x hx
      cases hl : s.c.thriftCache.lookup hostPort with
      | none => rw [hl] at hx; simp [Pc.carries] at hx
      | some y => rw [hl] at hx; simpa [Pc.carries] using hx
    | runlock r =>
      have hpos : 1 ≤ s.readers := by
        rw [← inv.readers_eq]
        exact countP_pos_of_mem _ _ _ hmem rfl
      cases r with
      | none =>
        simp only [step, ha]
        exact reachable_set c0 hostPort n s inv i (Pc.runlock none) Pc.lock ha s.writer
          (s.readers - 1) (by simp [Pc.holdsW]) (by simp [Pc.holdsR]; omega)
          (by simp [Pc.carries]) (by simp [Pc.isBuilding]) rfl
      | some client =>
        simp only [step, ha]
        refine reachable_set c0 hostPort n s inv i (Pc.runlock (some client)) (Pc.done client)
          ha s.writer (s.readers - 1) (by simp [Pc.holdsW]) (by simp [Pc.holdsR]; omega)
          ?_ (by simp [Pc.isBuilding]) rfl
        intro x hx
        exact inv.cached _ hmem x (by simpa [Pc.carries] using hx)
    | lock =>
      simp only [step, ha]
      split
      · exact inv
      · rename_i hfree
        have hw : s.writer = false := by
          cases h : s.writer <;> simp_all
        exact reachable_set c0 hostPort n s inv i Pc.lock Pc.recheck ha true s.readers
          (by simp [Pc.holdsW, hw]) (by simp [Pc.holdsR]) (by simp [Pc.carries])
          (by simp [Pc.isBuilding]) rfl
    | recheck =>
      simp only [step, ha]
      cases hl : s.c.thriftCache.lookup hostPort with
      | none =>
        exact reachable_set c0 hostPort n s inv i Pc.recheck Pc.construct ha s.writer s.readers
          (by simp [Pc.holdsW]) (by simp [Pc.holdsR]) (by simp [Pc.carries])
          (fun _ => hl) rfl
      | some client =>
        refine reachable_set c0 hostPort n s inv i Pc.recheck (Pc.unlock client) ha s.writer
          s.readers (by simp [Pc.holdsW]) (by simp [Pc.holdsR]) ?_ (by simp [Pc.isBuilding]) rfl
        intro x hx
        rw [hl]
        simpa [Pc.carries] using hx
    | construct =>
      simp only [step, ha]
      obtain ⟨hl, hw, hr, hc, hab, hb⟩ := inv
      have cW := countP_set_add Pc.holdsW Pc.construct
        (Pc.store ⟨s.c.handles, hostPort⟩) s.threads i ha
      have cR := countP_set_add Pc.holdsR Pc.construct
        (Pc.store ⟨s.c.handles, hostPort⟩) s.threads i ha
      have cS := countP_set_add Pc.isStore Pc.construct
        (Pc.store ⟨s.c.handles, hostPort⟩) s.threads i ha
      simp only [Pc.holdsW, Pc.holdsR, Pc.isStore] at cW cR cS
      have hnone := hab _ hmem rfl
      refine ⟨by simpa using hl, ?_, ?_, ?_, ?_, ?_⟩
      · show (s.threads.set i _).countP Pc.holdsW = if s.writer then 1 else 0
        simp at cW; omega
      · show (s.threads.set i _).countP Pc.holdsR = s.readers
        simp at cR; omega
      · intro pc hpc x hx
        rcases List.mem_or_eq_of_mem_set hpc with h | h
        · exact hc pc h x hx
        · subst h; simp [Pc.carries] at hx
      · intro pc hpc _
        exact hnone
      · show clientImpl.built ⟨s.c.thriftCache, s.c.handles + 1,
            s.c.trace ++ [Event.NewClient hostPort]⟩ hostPort =
          c0.built hostPort + (if (s.c.thriftCache.lookup hostPort).isSome then 1 else 0) +
            (s.threads.set i (Pc.store ⟨s.c.handles, hostPort⟩)).countP Pc.isStore
        rw [built_construct]
        simp at cS
        omega
    | store client =>
      simp only [step, ha]
      obtain ⟨hl, hw, hr, hc, hab, hb⟩ := inv
      have cW := countP_set_add Pc.holdsW (Pc.store client) (Pc.unlock client) s.threads i ha
      have cR := countP_set_add Pc.holdsR (Pc.store client) (Pc.unlock client) s.threads i ha
      have cS := countP_set_add Pc.isStore (Pc.store client) (Pc.unlock client) s.threads i ha
      simp only [Pc.holdsW, Pc.holdsR, Pc.isStore] at cW cR cS
      simp at cW cR cS
      have hnone := hab _ hmem rfl
      have cB := countP_set_add Pc.isBuilding (Pc.store client) (Pc.unlock client) s.threads i ha
      simp only [Pc.isBuilding] at cB
      simp at cB
      have hW1 : s.threads.countP Pc.holdsW ≤ 1 := by rw [hw]; split <;> omega
      have hB1 := isBuilding_le_holdsW s.threads
      have hS1 := isStore_le_isBuilding (s.threads.set i (Pc.unlock client))
      have hB0 : (s.threads.set i (Pc.unlock client)).countP Pc.isBuilding = 0 := by omega
      have hlook : (mapSet s.c.thriftCache hostPort client).lookup hostPort = some client :=
        lookup_mapSet_self _ _ _
      refine ⟨by simpa using hl, ?_, ?_, ?_, ?_, ?_⟩
      · show (s.threads.set i _).countP Pc.holdsW = if s.writer then 1 else 0
        omega
      · show (s.threads.set i _).countP Pc.holdsR = s.readers
        omega
      · intro pc hpc x hx
        show (mapSet s.c.thriftCache hostPort client).lookup hostPort = some x
        rcases List.mem_or_eq_of_mem_set hpc with h | h
        · have := hc pc h x hx
          rw [hnone] at this
          cases this
        · subst h
          rw [hlook]
          simpa [Pc.carries] using hx
      · intro pc hpc hx
        exfalso
        exact List.countP_eq_zero.mp hB0 pc hpc hx
      · show clientImpl.built ⟨mapSet s.c.thriftCache hostPort client, s.c.handles, s.c.trace⟩
            hostPort =
          c0.built hostPort +
            (if ((mapSet s.c.thriftCache hostPort client).lookup hostPort).isSome then 1
              else 0) +
            (s.threads.set i (Pc.unlock client)).countP Pc.isStore
        rw [hlook]
        have hb2 : s.c.built hostPort =
            c0.built hostPort + (if (s.c.thriftCache.lookup hostPort).isSome then 1 else 0) +
              s.threads.countP Pc.isStore := hb
        rw [hnone] at hb2
        simp only [Option.isSome_none, Option.isSome_some] at hb2 ⊢
        have hbe : clientImpl.built
            ⟨mapSet s.c.thriftCache hostPort client, s.c.handles, s.c.trace⟩ hostPort =
            s.c.built hostPort := rfl
        rw [hbe]
        simp at hb2 ⊢
        omega
    | unlock client =>
      simp only [step, ha]
      have hw : s.writer = true := by
        have h1 := countP_pos_of_mem Pc.holdsW _ _ hmem rfl
        have h2 := inv.writers
        cases h : s.writer
        · rw [h] at h2
          simp only [Bool.false_eq_true, if_false] at h2
          omega
        · rfl
      refine reachable_set c0 hostPort n s inv i (Pc.unlock client) (Pc.done client) ha false
        s.readers (by simp [Pc.holdsW, hw]) (by simp [Pc.holdsR]) ?_ (by simp [Pc.isBuilding]) rfl
      intro x hx
      exact inv.cached _ hmem x (by simpa [Pc.carries] using hx)
    | done client =>
      simp only [step, ha]
      exact inv

theorem run_reachable (c0 : clientImpl) (hostPort : String) (n : Nat) (sched : List Nat)
    (s : System) (inv : Reachable c0 hostPort n s) :
    Reachable c0 hostPort n (run hostPort sched s) := by
  induction sched generalizing s with
  | nil => exact inv
  | cons i rest ih => exact ih _ (step_reachable c0 hostPort n s inv i)

theorem run_append (hostPort : String) (a b : List Nat) (s : System) :
    run hostPort (a ++ b) s = run hostPort b (run hostPort a s) := by
  induction a generalizing s with
  | nil => rfl
  | cons i rest ih => exact ih _

/-! ## Concurrent callers: progress -/

/-- A goroutine that cannot move leaves the system as it is. -/
theorem step_of_not_enabled (hostPort : String) (i : Nat) (s : System)
    (h : enabled i s = false) : step hostPort i s = s := by
  cases ha : s.threads[i]? with
  | none => simp only [step, ha]
  | some pc =>
    cases pc with
    | rlock =>
      have hw : s.writer = true := by simpa [enabled, ha] using h
      simp [step, ha, hw]
    | lock =>
      have hw : (s.writer || s.readers != 0) = true := by
        have h2 : (!s.writer && s.readers == 0) = false := by simpa [enabled, ha] using h
        cases hwr : s.writer
        · rw [hwr] at h2
          simpa using h2
        · rfl
      simp only [step, ha, hw, if_true]
    | done client => simp only [step, ha]
    | read => simp [enabled, ha] at h
    | runlock r => simp [enabled, ha] at h
    | recheck => simp [enabled, ha] at h
    | construct => simp [enabled, ha] at h
    | store client => simp [enabled, ha] at h
    | unlock client => simp [enabled, ha] at h

/-- A goroutine that moves uses up one of the steps left. -/
theorem step_rank (hostPort : String) (i : Nat) (s : System) (h : enabled i s = true) :
    (step hostPort i s).rank + 1 ≤ s.rank := by
  cases ha : s.threads[i]? with
  | none => simp [enabled, ha] at h
  | some pc =>
    cases pc with
    | rlock =>
      have hw : s.writer = false := by simpa [enabled, ha] using h
      have := sum_rank_set _ Pc.read s.threads i ha
      simp only [step, ha, hw, System.rank, Pc.rank] at this ⊢
      simp only [Bool.false_eq_true, if_false]
      omega
    | read =>
      have := sum_rank_set _ (Pc.runlock (s.c.thriftCache.lookup hostPort)) s.threads i ha
      simp only [step, ha, System.rank, Pc.rank] at this ⊢
      omega
    | runlock r =>
      cases r with
      | none =>
        have := sum_rank_set _ Pc.lock s.threads i ha
        simp only [step, ha, System.rank, Pc.rank] at this ⊢
        omega
      | some client =>
        have := sum_rank_set _ (Pc.done client) s.threads i ha
        simp only [step, ha, System.rank, Pc.rank] at this ⊢
        omega
    | lock =>
      have h2 : (!s.writer && s.readers == 0) = true := by simpa [enabled, ha] using h
      have hw : (s.writer || s.readers != 0) = false := by
        cases hwr : s.writer
        · rw [hwr] at h2
          simpa using h2
        · rw [hwr] at h2
          simp at h2
      have := sum_rank_set _ Pc.recheck s.threads i ha
      simp only [step, ha, hw, System.rank, Pc.rank] at this ⊢
      simp only [Bool.false_eq_true, if_false]
      omega
    | recheck =>
      cases hl : s.c.thriftCache.lookup hostPort with
      | none =>
        have := sum_rank_set _ Pc.construct s.threads i ha
        simp only [step, ha, hl, System.rank, Pc.rank] at this ⊢
        omega
      | some client =>
        have := sum_rank_set _ (Pc.unlock client) s.threads i ha
        simp only [step, ha, hl, System.rank, Pc.rank] at this ⊢
        omega
    | construct =>
      have := sum_rank_set _ (Pc.store ⟨s.c.handles, hostPort⟩) s.threads i ha
      simp only [step, ha, System.rank, Pc.rank] at this ⊢
      omega
    | store client =>
      have := sum_rank_set _ (Pc.unlock client) s.threads i ha
      simp only [step, ha, System.rank, Pc.rank] at this ⊢
      omega
    | unlock client =>
      have := sum_rank_set _ (Pc.done client) s.threads i ha
      simp only [step, ha, System.rank, Pc.rank] at this ⊢
      omega
    | done client => simp [enabled, ha] at h

theorem moves_add_rank_le (hostPort : String) (sched : List Nat) (s : System) :
    moves hostPort sched s + (run hostPort sched s).rank ≤ s.rank := by
  induction sched generalizing s with
  | nil => simp [moves, run]
  | cons i rest ih =>
    have h1 := ih (step hostPort i s)
    cases he : enabled i s with
    | false =>
      rw [step_of_not_enabled hostPort i s he] at h1
      simp only [moves, run, he, step_of_not_enabled hostPort i s he]
      simp only [Bool.false_eq_true, if_false]
      omega
    | true =>
      have h2 := step_rank hostPort i s he
      simp only [moves, run, he, if_true]
      omega

theorem rank_init (c : clientImpl) (n : Nat) : (System.init c n).rank = 8 * n := by
  simp [System.rank, System.init, Pc.rank, List.map_replicate, List.sum_replicate, Nat.mul_comm]

/-- No deadlock: while a goroutine has not returned, some goroutine can move. -/
theorem exists_enabled (c0 : clientImpl) (hostPort : String) (n : Nat) (s : System)
    (inv : Reachable c0 hostPort n s) (hnd : s.allDone = false) :
    ∃ i, i < n ∧ enabled i s = true := by
  have index : ∀ pc ∈ s.threads, ∃ j, j < n ∧ s.threads[j]? = some pc := by
    intro pc hpc
    obtain ⟨j, hj⟩ := List.getElem?_of_mem hpc
    refine ⟨j, ?_, hj⟩
    rw [← inv.length_eq]
    by_contra hge
    rw [List.getElem?_eq_none (by omega)] at hj
    cases hj
  by_cases hW : 0 < s.threads.countP Pc.holdsW
  · obtain ⟨a, ha, hpa⟩ := List.countP_pos_iff.mp hW
    obtain ⟨j, hjn, hj⟩ := index a ha
    refine ⟨j, hjn, ?_⟩
    cases a <;> simp_all [enabled, Pc.holdsW]
  · have hW0 : s.threads.countP Pc.holdsW = 0 := by omega
    have hw : s.writer = false := by
      have h2 := inv.writers
      rw [hW0] at h2
      cases h : s.writer
      · rfl
      · rw [h] at h2; simp at h2
    by_cases hR : 0 < s.threads.countP Pc.holdsR
    · obtain ⟨a, ha, hpa⟩ := List.countP_pos_iff.mp hR
      obtain ⟨j, hjn, hj⟩ := index a ha
      refine ⟨j, hjn, ?_⟩
      cases a <;> simp_all [enabled, Pc.holdsR]
    · have hR0 : s.threads.countP Pc.holdsR = 0 := by omega
      have hr : s.readers = 0 := by rw [← inv.readers_eq]; exact hR0
      have hex : ∃ pc ∈ s.threads, pc.isDone = false := by
        by_contra hcon
        have hall : s.allDone = true := by
          simp only [System.allDone, List.all_eq_true]
          intro pc hpc
          cases hd : pc.isDone
          · exact absurd ⟨pc, hpc, hd⟩ hcon
          · rfl
        rw [hall] at hnd
        cases hnd
      obtain ⟨pc, hpc, hd⟩ := hex
      obtain ⟨j, hjn, hj⟩ := index pc hpc
      have hnW := List.countP_eq_zero.mp hW0 pc hpc
      have hnR := List.countP_eq_zero.mp hR0 pc hpc
      refine ⟨j, hjn, ?_⟩
      cases pc <;> simp_all [enabled, Pc.holdsW, Pc.holdsR, Pc.isDone]

/-- Every reachable system can be run to the point where all goroutines have
returned. -/
theorem can_finish (c0 : clientImpl) (hostPort : String) (n : Nat) :
    ∀ (k : Nat) (s : System), s.rank ≤ k → Reachable c0 hostPort n s →
      ∃ more, (run hostPort more s).allDone = true := by
  intro k
  induction k with
  | zero =>
    intro s hk inv
    cases hd : s.allDone with
    | true => exact ⟨[], hd⟩
    | false =>
      obtain ⟨i, _, hi⟩ := exists_enabled c0 hostPort n s inv hd
      have := step_rank hostPort i s hi
      omega
  | succ k ih =>
    intro s hk inv
    cases hd : s.allDone with
    | true => exact ⟨[], hd⟩
    | false =>
      obtain ⟨i, _, hi⟩ := exists_enabled c0 hostPort n s inv hd
      have h1 := step_rank hostPort i s hi
      obtain ⟨more, hm⟩ := ih (step hostPort i s) (by omega)
        (step_reachable c0 hostPort n s inv i)
      exact ⟨i :: more, hm⟩

/-! ## Concurrent callers: one handle (C8) -/

theorem reachable_built_le (c0 : clientImpl) (hostPort : String) (n : Nat) (s : System)
    (inv : Reachable c0 hostPort n s) : s.c.built hostPort ≤ c0.built hostPort + 1 := by
  have hb := inv.built_eq
  cases hl : s.c.thriftCache.lookup hostPort with
  | none =>
    have h1 := isStore_le_isBuilding s.threads
    have h2 := isBuilding_le_holdsW s.threads
    have h3 : s.threads.countP Pc.holdsW ≤ 1 := by rw [inv.writers]; split <;> omega
    rw [hl] at hb
    simp only [Option.isSome_none, Bool.false_eq_true, if_false] at hb
    omega
  | some client =>
    have h0 : s.threads.countP Pc.isBuilding = 0 := by
      apply List.countP_eq_zero.mpr
      intro pc hpc hx
      have := inv.absent pc hpc hx
      rw [hl] at this
      cases this
    have h1 := isStore_le_isBuilding s.threads
    rw [hl] at hb
    simp only [Option.isSome_some, if_true] at hb
    omega

theorem reachable_done_same (c0 : clientImpl) (hostPort : String) (n : Nat) (s : System)
    (inv : Reachable c0 hostPort n s) (x y : Handle) (hx : Pc.done x ∈ s.threads)
    (hy : Pc.done y ∈ s.threads) : x = y := by
  have h1 := inv.cached _ hx x rfl
  have h2 := inv.cached _ hy y rfl
  rw [h1] at h2
  exact Option.some.inj h2

theorem reachable_allDone (c0 : clientImpl) (hostPort : String) (n : Nat) (s : System)
    (inv : Reachable c0 hostPort n s) (hn : 1 ≤ n) (hd : s.allDone = true) :
    s.c.built hostPort = c0.built hostPort + 1 ∧
    ∃ client, s.threads = List.replicate n (Pc.done client) ∧
      s.c.thriftCache.lookup hostPort = some client := by
  have hall : ∀ pc ∈ s.threads, pc.isDone = true := by
    simpa [System.allDone, List.all_eq_true] using hd
  have hne : s.threads ≠ [] := by
    intro e
    have := inv.length_eq
    rw [e] at this
    simp at this
    omega
  obtain ⟨pc0, rest, hcons⟩ := List.exists_cons_of_ne_nil hne
  have hmem0 : pc0 ∈ s.threads := by rw [hcons]; exact List.mem_cons_self _ _
  have hd0 := hall pc0 hmem0
  cases pc0 with
  | done client =>
    have hlook := inv.cached _ hmem0 client rfl
    have hS0 : s.threads.countP Pc.isStore = 0 := by
      apply List.countP_eq_zero.mpr
      intro pc hpc hx
      have := hall pc hpc
      cases pc <;> simp_all [Pc.isStore, Pc.isDone]
    have hb := inv.built_eq
    rw [hlook, hS0] at hb
    refine ⟨by simpa using hb, client, ?_, hlook⟩
    apply List.eq_replicate_iff.mpr
    refine ⟨inv.length_eq, ?_⟩
    intro pc hpc
    have hdp := hall pc hpc
    cases pc with
    | done y =>
      rw [reachable_done_same c0 hostPort n s inv y client hpc hmem0]
    | rlock => simp [Pc.isDone] at hdp
    | read => simp [Pc.isDone] at hdp
    | runlock r => simp [Pc.isDone] at hdp
    | lock => simp [Pc.isDone] at hdp
    | recheck => simp [Pc.isDone] at hdp
    | construct => simp [Pc.isDone] at hdp
    | store x => simp [Pc.isDone] at hdp
    | unlock x => simp [Pc.isDone] at hdp
  | rlock => simp [Pc.isDone] at hd0
  | read => simp [Pc.isDone] at hd0
  | runlock r => simp [Pc.isDone] at hd0
  | lock => simp [Pc.isDone] at hd0
  | recheck => simp [Pc.isDone] at hd0
  | construct => simp [Pc.isDone] at hd0
  | store x => simp [Pc.isDone] at hd0
  | unlock x => simp [Pc.isDone] at hd0

/-- A goroutine running alone through its eight steps does what `getThriftClient`
does on a miss. -/
theorem run_alone_miss (c : clientImpl) (hostPort : String)
    (hmiss : c.thriftCache.lookup hostPort = none) :
    run hostPort [0, 0, 0, 0, 0, 0, 0, 0] (System.init c 1) =
      ⟨0, false, (getThriftClient c hostPort).2, [Pc.done (getThriftClient c hostPort).1]⟩ := by
  rw [getThriftClient_miss c hostPort hmiss]
  simp [run, step, System.init, hmiss, List.replicate]

/-- C8. Let `n >= 1` goroutines call `getThriftClient` for an address that the cache
does not hold, each lock operation and each access to the shared state being one step.
Whatever the schedule: at most one handle has been built for the address; the calls
that have returned have returned the same handle; once all have returned, exactly one
handle has been built, every call has returned it and the cache holds it; as long as
some call has not returned, some goroutine can move; at most `8 * n` steps of the
schedule move a goroutine; and the schedule can be continued until all calls have
returned. -/
theorem concurrent_first_access_builds_once (c0 : clientImpl) (hostPort : String) (n : Nat)
    (hn : 1 ≤ n) (hmiss : c0.thriftCache.lookup hostPort = none) (sched : List Nat) :
    (run hostPort sched (System.init c0 n)).c.built hostPort ≤
      c0.built hostPort + 1 ∧
    (∀ x y, Pc.done x ∈ (run hostPort sched (System.init c0 n)).threads →
      Pc.done y ∈ (run hostPort sched (System.init c0 n)).threads → x = y) ∧
    ((run hostPort sched (System.init c0 n)).allDone = true →
      (run hostPort sched (System.init c0 n)).c.built hostPort =
        c0.built hostPort + 1 ∧
      ∃ client,
        (run hostPort sched (System.init c0 n)).threads =
          List.replicate n (Pc.done client) ∧
        (run hostPort sched (System.init c0 n)).c.thriftCache.lookup hostPort =
          some client) ∧
    ((run hostPort sched (System.init c0 n)).allDone = false →
      ∃ i, i < n ∧ enabled i (run hostPort sched (System.init c0 n)) = true) ∧
    moves hostPort sched (System.init c0 n) ≤ 8 * n ∧
    ∃ more, (run hostPort (sched ++ more) (System.init c0 n)).allDone = true := by
  have inv := run_reachable c0 hostPort n sched _ (reachable_init c0 hostPort n hmiss)
  refine ⟨reachable_built_le c0 hostPort n _ inv,
    fun x y => reachable_done_same c0 hostPort n _ inv x y,
    reachable_allDone c0 hostPort n _ inv hn,
    exists_enabled c0 hostPort n _ inv, ?_, ?_⟩
  · have := moves_add_rank_le hostPort sched (System.init c0 n)
    rw [rank_init] at this
    omega
  · obtain ⟨more, hm⟩ := can_finish c0 hostPort n _ _ (Nat.le_refl _) inv
    exact ⟨more, by rw [run_append]; exact hm⟩

/-- C8 for two goroutines that both miss on the first read before either takes the
write lock: the first builds the handle, the second finds it on the re-check. -/
theorem concurrent_first_access_builds_once_witness :
    1 ≤ 2 ∧ NewClient.thriftCache.lookup "10.0.0.5:7941" = none ∧
    run "10.0.0.5:7941" [0, 1, 0, 1, 0, 1, 0, 1, 0, 0, 0, 0, 1, 1, 1]
        (System.init NewClient 2) =
      ⟨0, false,
        ⟨[("10.0.0.5:7941", ⟨0, "10.0.0.5:7941"⟩)], 1, [Event.NewClient "10.0.0.5:7941"]⟩,
        [Pc.done ⟨0, "10.0.0.5:7941"⟩, Pc.done ⟨0, "10.0.0.5:7941"⟩]⟩ ∧
    ((run "10.0.0.5:7941" [0, 1, 0, 1, 0, 1, 0, 1, 0, 0, 0, 0, 1, 1, 1]
        (System.init NewClient 2)).c.built "10.0.0.5:7941" =
        NewClient.built "10.0.0.5:7941" + 1 ∧
      ∃ client,
        (run "10.0.0.5:7941" [0, 1, 0, 1, 0, 1, 0, 1, 0, 0, 0, 0, 1, 1, 1]
          (System.init NewClient 2)).threads = List.replicate 2 (Pc.done client) ∧
        (run "10.0.0.5:7941" [0, 1, 0, 1, 0, 1, 0, 1, 0, 0, 0, 0, 1, 1, 1]
          (System.init NewClient 2)).c.thriftCache.lookup "10.0.0.5:7941" = some client) :=
  ⟨by decide, by decide, by decide,
    (concurrent_first_access_builds_once NewClient "10.0.0.5:7941" 2 (by decide) (by decide)
      [0, 1, 0, 1, 0, 1, 0, 1, 0, 0, 0, 0, 1, 1, 1]).2.2.1 (by decide)⟩

end Matching
